import Mathlib

/-!
# cifsd-tools: the DCE/RPC (NDR) marshalling layer of `cifsd/rpc.c`

A shallow embedding of `src/cifsd/rpc.c`.  Stateful C functions become pure
functions returning the status together with the updated object.

Conventions of the embedding

* Target: LP64 Linux on a little-endian host with a signed `char` (x86-64).
  `size_t` is 64 bits wide, `int` is 32 bits wide.
* `struct cifsd_dcerpc`, `struct cifsd_rpc_pipe`, the `CIFSD_DCERPC_*`
  constants and the charset names live in `rpc.h` / `cifsdtools.h`, which are
  not part of the sources at hand; what the code needs of them is modelled
  below and marked as such.
* Memory is a total map from byte index to byte value, so a store past the
  logical capacity `payload_sz` is visible as such instead of being lost.
-/

namespace Cifsd

/-! ## Machine integers -/

/-- Number of values of `size_t` (64-bit). -/
def SIZE_MOD : Nat := 2 ^ 64

/-- Conversion of a C integer value to `size_t`. -/
def to_size_t (x : Int) : Nat := (x % (SIZE_MOD : Int)).toNat

/-- Addition in `size_t`. -/
def size_add (a b : Nat) : Nat := (a + b) % SIZE_MOD

/-- Subtraction in `size_t` (wraps around below zero). -/
def size_sub (a b : Nat) : Nat := to_size_t ((a : Int) - (b : Int))

/-- Multiplication in `size_t`. -/
def size_mul (a b : Nat) : Nat := (a * b) % SIZE_MOD

/-- Conversion of an integer value to the unsigned type of `w` bits. -/
def to_unsigned (w : Nat) (x : Int) : Nat := (x % ((2 : Int) ^ w)).toNat

/-- Conversion of an integer value to the signed type of `w` bits
(two-complement wrap, as gcc does). -/
def to_signed (w : Nat) (x : Int) : Int :=
  if x % ((2 : Int) ^ w) < (2 : Int) ^ (w - 1) then x % ((2 : Int) ^ w)
  else x % ((2 : Int) ^ w) - (2 : Int) ^ w

/-- Byte swap of an `n`-byte unsigned value (`bswap_16/32/64` of glibc). -/
def bswap : Nat → Nat → Nat
  | 0, _ => 0
  | n + 1, x => (x % 256) * 256 ^ n + bswap n (x / 256)

/-- The `htole16/32/64` family of `<endian.h>` on a little-endian host: identity. -/
def htole (_n : Nat) (x : Nat) : Nat := x

/-- The `htobe16/32/64` family of `<endian.h>` on a little-endian host: byte swap. -/
def htobe (n : Nat) (x : Nat) : Nat := bswap n x

/-- Value of `ENOMEM` in `<errno.h>`. -/
def ENOMEM : Int := 12

/-- Value of `EINVAL` in `<errno.h>`. -/
def EINVAL : Int := 22

/-! ## Constants of `rpc.h` -/

/-- Modelled from the spec: `rpc.h` is absent; the spec lists the flag set
`LITTLE_ENDIAN`, `ALIGN4`, `ALIGN8`, `FIXED_CAPACITY`, `EXTERNAL_BUFFER`,
`ASCII_STRING`; each is one bit of `flags`. -/
def CIFSD_DCERPC_LITTLE_ENDIAN : Nat := 1

/-- Modelled from the spec: flag bit for 4-byte alignment (`rpc.h` is absent). -/
def CIFSD_DCERPC_ALIGN4 : Nat := 2

/-- Modelled from the spec: flag bit for 8-byte alignment (`rpc.h` is absent). -/
def CIFSD_DCERPC_ALIGN8 : Nat := 4

/-- Modelled from the spec: flag bit for single-byte strings (`rpc.h` is absent). -/
def CIFSD_DCERPC_ASCII_STRING : Nat := 8

/-- Modelled from the spec: flag bit of a fixed-capacity context (`rpc.h` is absent). -/
def CIFSD_DCERPC_FIXED_PAYLOAD_SZ : Nat := 16

/-- Modelled from the spec: flag bit of a borrowed buffer (`rpc.h` is absent). -/
def CIFSD_DCERPC_EXTERNAL_PAYLOAD : Nat := 32

/-- Modelled from the spec: the continuation status ("more-data"); `rpc.h` is
absent, the value is the Win32 code `ERROR_MORE_DATA`. -/
def CIFSD_DCERPC_ERROR_MORE_DATA : Int := 234

/-- Modelled from the spec: the "invalid-level" status; `rpc.h` is absent, the
value is the Win32 code `ERROR_INVALID_LEVEL`. -/
def CIFSD_DCERPC_ERROR_INVALID_LEVEL : Int := 124

/-! ## The codec context -/

/-- Modelled from the spec: the data members of `struct cifsd_dcerpc` (`rpc.h` is
absent): flag bit-set, cursor, logical capacity and the byte buffer.  `payload`
is a `char *` in the code (`char *n; dce->payload = n;`, byte-wise `memset` and
`memcpy` at `payload + offset`), here a map from byte index to byte value.
`realloc_ok` is not a member of the C structure: it records whether the
allocator grants the next `realloc`. -/
structure cifsd_dcerpc where
  flags : Nat
  offset : Nat
  payload_sz : Nat
  payload : Nat → Nat
  realloc_ok : Bool

/-- The test `dce->flags & bit` of the C code. -/
def test_flag (dce : cifsd_dcerpc) (bit : Nat) : Bool := dce.flags &&& bit != 0

/-- Effect of `memset(base + start, c, len)` on the memory map. -/
def memset (p : Nat → Nat) (start c len : Nat) : Nat → Nat :=
  fun i => if start ≤ i ∧ i < start + len then c else p i

/-- Effect of `memcpy(base + start, src, sz)` on the memory map; `src` lists
the source bytes (bytes past its end read as 0). -/
def memcpy (p : Nat → Nat) (start : Nat) (src : List Nat) (sz : Nat) : Nat → Nat :=
  fun i => if start ≤ i ∧ i < start + sz then src.getD (i - start) 0 else p i

/-- Store through an lvalue of type `char`: one byte, the value converted to
`char` (low 8 bits). -/
def store_char (p : Nat → Nat) (o : Nat) (x : Nat) : Nat → Nat :=
  fun i => if i = o then x % 256 else p i

/-- Load through an lvalue of type `char` (signed): one byte, sign-extended. -/
def load_char (p : Nat → Nat) (o : Nat) : Int :=
  if p o % 256 < 128 then ((p o % 256 : Nat) : Int) else ((p o % 256 : Nat) : Int) - 256

/-- The macro `__ALIGN(x, a)` for `a` a power of two, on `size_t`:
`(x + (a - 1)) & ~(a - 1)` when `x & (a - 1)` is non-zero, else `x`. -/
def ALIGN (x a : Nat) : Nat :=
  if x % a ≠ 0 then size_add x (a - 1) - size_add x (a - 1) % a else x

/-- Embedding of `align_offset`. -/
def align_offset (dce : cifsd_dcerpc) : cifsd_dcerpc :=
  if test_flag dce CIFSD_DCERPC_ALIGN8 then { dce with offset := ALIGN dce.offset 8 }
  else if test_flag dce CIFSD_DCERPC_ALIGN4 then { dce with offset := ALIGN dce.offset 4 }
  else dce

/-- Embedding of `try_realloc_payload`: the status and the updated context.
The comparison `dce->offset < dce->payload_sz - data_sz` is evaluated in
`size_t` because `data_sz` is a `size_t`. -/
def try_realloc_payload (dce : cifsd_dcerpc) (data_sz : Nat) : Int × cifsd_dcerpc :=
  if dce.offset < size_sub dce.payload_sz data_sz then (0, dce)
  else if test_flag dce CIFSD_DCERPC_FIXED_PAYLOAD_SZ then (-ENOMEM, dce)
  else if !dce.realloc_ok then (-ENOMEM, dce)
  else
    (0, { dce with
            payload_sz := size_add dce.payload_sz 4096
            payload := memset dce.payload dce.offset 0
              (size_sub (size_add dce.payload_sz 4096) dce.offset) })

/-- Embedding of the macro `NDR_WRITE_INT(name, type, be, le)` for a type of
`n` bytes.  `*PAYLOAD_HEAD(dce) = le(value)` assigns through `char *`:
one byte is stored. -/
def ndr_write_int (n : Nat) (dce : cifsd_dcerpc) (value : Int) : Int × cifsd_dcerpc :=
  if (try_realloc_payload dce n).1 ≠ 0 then (-ENOMEM, (try_realloc_payload dce n).2)
  else
    let d := (try_realloc_payload dce n).2
    let x := to_unsigned (8 * n) value
    let w := if test_flag d CIFSD_DCERPC_LITTLE_ENDIAN then htole n x else htobe n x
    (0, align_offset { d with
                         payload := store_char d.payload d.offset w
                         offset := size_add d.offset n })

/-- Instance `NDR_WRITE_INT(int16, __s16, htobe16, htole16)`. -/
def ndr_write_int16 (dce : cifsd_dcerpc) (value : Int) : Int × cifsd_dcerpc :=
  ndr_write_int 2 dce value

/-- Instance `NDR_WRITE_INT(int32, __s32, htobe32, htole32)`. -/
def ndr_write_int32 (dce : cifsd_dcerpc) (value : Int) : Int × cifsd_dcerpc :=
  ndr_write_int 4 dce value

/-- Instance `NDR_WRITE_INT(int64, __s64, htobe64, htole64)`. -/
def ndr_write_int64 (dce : cifsd_dcerpc) (value : Int) : Int × cifsd_dcerpc :=
  ndr_write_int 8 dce value

/-- Embedding of the macro `NDR_READ_INT(name, type, be, le)` for a type of
`n` bytes.  `*PAYLOAD_HEAD(dce)` reads through `char *`: one byte is
loaded, converted to the unsigned `n`-byte argument type of `le` / `be`, and
the result is converted to the signed return type. -/
def ndr_read_int (n : Nat) (dce : cifsd_dcerpc) : Int × cifsd_dcerpc :=
  let x := to_unsigned (8 * n) (load_char dce.payload dce.offset)
  let r := if test_flag dce CIFSD_DCERPC_LITTLE_ENDIAN then htole n x else htobe n x
  (to_signed (8 * n) (r : Int), align_offset { dce with offset := size_add dce.offset n })

/-- Instance `NDR_READ_INT(int16, __s16, htobe16, htole16)`. -/
def ndr_read_int16 (dce : cifsd_dcerpc) : Int × cifsd_dcerpc := ndr_read_int 2 dce

/-- Instance `NDR_READ_INT(int32, __s32, htobe32, htole32)`. -/
def ndr_read_int32 (dce : cifsd_dcerpc) : Int × cifsd_dcerpc := ndr_read_int 4 dce

/-- Instance `NDR_READ_INT(int64, __s64, htobe64, htole64)`. -/
def ndr_read_int64 (dce : cifsd_dcerpc) : Int × cifsd_dcerpc := ndr_read_int 8 dce

/-- Embedding of `ndr_write_union`. -/
def ndr_write_union (dce : cifsd_dcerpc) (value : Int) : Int × cifsd_dcerpc :=
  if (ndr_write_int32 dce value).1 ≠ 0 then ndr_write_int32 dce value
  else ndr_write_int32 (ndr_write_int32 dce value).2 value

/-- Embedding of `ndr_read_union` (the mismatch is only logged). -/
def ndr_read_union (dce : cifsd_dcerpc) : Int × cifsd_dcerpc :=
  ((ndr_read_int32 dce).1, (ndr_read_int32 (ndr_read_int32 dce).2).2)

/-- Embedding of `ndr_write_bytes`: room is requested for `sizeof(short)`
bytes, then `sz` bytes are copied. -/
def ndr_write_bytes (dce : cifsd_dcerpc) (value : List Nat) (sz : Nat) : Int × cifsd_dcerpc :=
  if (try_realloc_payload dce 2).1 ≠ 0 then (-ENOMEM, (try_realloc_payload dce 2).2)
  else
    let d := (try_realloc_payload dce 2).2
    (0, align_offset { d with
                         payload := memcpy d.payload d.offset value sz
                         offset := size_add d.offset sz })

/-- Embedding of `ndr_read_bytes`: the `sz` bytes at the cursor and the
advanced context (no alignment). -/
def ndr_read_bytes (dce : cifsd_dcerpc) (sz : Nat) : List Nat × cifsd_dcerpc :=
  ((List.range sz).map (fun i => dce.payload (dce.offset + i) % 256),
   { dce with offset := size_add dce.offset sz })

/-! ## Strings -/

/-- Modelled from the spec: the charset names `CHARSET_UTF16LE`, `CHARSET_UTF16BE`,
`CHARSET_UTF8` and `CHARSET_DEFAULT` of `cifsdtools.h` (absent); the spec
speaks of UTF-16 in either byte order, single-byte text and the host text
representation. -/
inductive charset where
  | CHARSET_UTF16LE
  | CHARSET_UTF16BE
  | CHARSET_UTF8
  | CHARSET_DEFAULT
  deriving DecidableEq, Repr

open charset

/-- The transcoding service `g_convert(str, len, to_codeset, from_codeset, ..)`
of GLib, an external collaborator: the source memory at `str`, the length
argument (a signed `gssize`), the target and the source charset; `none` is a
conversion error, `some out` the `bytes_written` output bytes. -/
abbrev g_convert_t := (Nat → Nat) → Int → charset → charset → Option (List Nat)

/-- Decoding step of `g_convert_7bit`: the code points of 7-bit text in the
given charset (`CHARSET_DEFAULT` read as UTF-8). -/
def decode_7bit : charset → List Nat → Option (List Nat)
  | CHARSET_UTF16LE, lo :: hi :: rest =>
    if lo < 128 ∧ hi = 0 then (decode_7bit CHARSET_UTF16LE rest).map (fun t => lo :: t) else none
  | CHARSET_UTF16LE, [] => some []
  | CHARSET_UTF16LE, [_] => none
  | CHARSET_UTF16BE, hi :: lo :: rest =>
    if lo < 128 ∧ hi = 0 then (decode_7bit CHARSET_UTF16BE rest).map (fun t => lo :: t) else none
  | CHARSET_UTF16BE, [] => some []
  | CHARSET_UTF16BE, [_] => none
  | _, bytes => if bytes.all (fun b => b < 128) then some bytes else none

/-- Encoding step of `g_convert_7bit`. -/
def encode_7bit : charset → List Nat → List Nat
  | CHARSET_UTF16LE, cs => cs.flatMap (fun c => [c, 0])
  | CHARSET_UTF16BE, cs => cs.flatMap (fun c => [0, c])
  | _, cs => cs

/-- An instance of the transcoding service that agrees with GLib on 7-bit
text given with an explicit non-negative length.  It is used only to
evaluate the code on concrete ASCII strings; on any other input its result
(`none`) is a placeholder and does not describe GLib. -/
def g_convert_7bit : g_convert_t := fun str len to_codeset from_codeset =>
  if len < 0 then none
  else (decode_7bit from_codeset ((List.range len.toNat).map str)).map (encode_7bit to_codeset)

/-- The charset selected by `ndr_write_vstring` and `ndr_read_vstring` from the flags. -/
def vstring_charset (dce : cifsd_dcerpc) : charset :=
  if test_flag dce CIFSD_DCERPC_ASCII_STRING then CHARSET_UTF8
  else if !test_flag dce CIFSD_DCERPC_LITTLE_ENDIAN then CHARSET_UTF16BE
  else CHARSET_UTF16LE

/-- Embedding of `ndr_write_vstring`; `value` is the C string without its
terminator, `none` the null pointer. -/
def ndr_write_vstring (conv : g_convert_t) (dce : cifsd_dcerpc) (value : Option (List Nat)) :
    Int × cifsd_dcerpc :=
  let raw_value := value.getD []
  match conv (fun i => raw_value.getD i 0) (raw_value.length : Int) (vstring_charset dce)
      CHARSET_DEFAULT with
  | none => (-EINVAL, dce)
  | some out =>
    let r1 := ndr_write_int32 dce (to_signed 32 ((out.length / 2 : Nat) : Int))
    let r2 := ndr_write_int32 r1.2 0
    let r3 := ndr_write_int32 r2.2 (to_signed 32 ((out.length / 2 : Nat) : Int))
    let r4 := ndr_write_bytes r3.2 out out.length
    (Int.lor (Int.lor (Int.lor r1.1 r2.1) r3.1) r4.1, r4.2)

/-- Embedding of `ndr_read_vstring`: the decoded string (`none` is the null
pointer returned on a conversion error) and the updated context.  `raw_len`
is the first of the three header words, converted to `size_t`. -/
def ndr_read_vstring (conv : g_convert_t) (dce : cifsd_dcerpc) :
    Option (List Nat) × cifsd_dcerpc :=
  let raw_len := to_size_t (ndr_read_int32 dce).1
  let d := (ndr_read_int32 (ndr_read_int32 (ndr_read_int32 dce).2).2).2
  if raw_len = 0 then (some [], d)
  else
    match conv (fun i => d.payload (d.offset + i) % 256)
        (to_signed 64 ((size_mul raw_len 2 : Nat) : Int)) CHARSET_DEFAULT (vstring_charset d) with
    | none => (none, d)
    | some out => (some out, align_offset { d with offset := size_add d.offset (size_mul raw_len 2) })

/-! ## Pipes and the array marshaller -/

/-- Modelled from the spec: the data members of `struct cifsd_rpc_pipe` (`rpc.h`
is absent): numeric id, entry count and the ordered entry sequence (a `GArray`
of pointers). -/
structure pipe_data (α : Type) where
  id : Nat
  num_entries : Int
  entries : List α

/-- Type of the callback `entry_processed(pipe, i)`.  It acts on the data
members of the pipe and on the log of entries released so far (the calls of
`put_cifsd_share`, in order); `none` is an access outside the entry array. -/
abbrev entry_processed_t (α : Type) := pipe_data α → List α → Int → Option (pipe_data α × List α)

/-- Modelled from the spec: `struct cifsd_rpc_pipe` (`rpc.h` is absent): the data
members and the optional "entry consumed" callback. -/
structure cifsd_rpc_pipe (α : Type) extends pipe_data α where
  entry_processed : Option (entry_processed_t α)

/-- The callbacks `entry_size`, `entry_rep` and `entry_data` held by
`struct cifsd_dcerpc`; `entry_size` may be a null pointer. -/
structure dcerpc_callbacks (α : Type) where
  entry_size : Option (cifsd_dcerpc → α → Int)
  entry_rep : cifsd_dcerpc → α → Int × cifsd_dcerpc
  entry_data : cifsd_dcerpc → α → Int × cifsd_dcerpc

/-- The macro `g_array_index(a, gpointer, i)`; `none` is an access outside the array. -/
def g_array_index {α : Type} (a : List α) (i : Nat) : Option α := a.get? i

/-- The budget loop of `ndr_write_array_of_structs` (lines 312-324), started
at index `i` with `n` iterations left: the resulting `max_entry_nr` and
`has_more_data`.  `current_size` is an `int`; the comparison with
`2 * dce->payload_sz / 3` is made in `size_t`. -/
def budget_loop {α : Type} (dce : cifsd_dcerpc) (entry_size : cifsd_dcerpc → α → Int)
    (pipe : pipe_data α) : Nat → Nat → Int → Option (Int × Int)
  | 0, _, _ => some (pipe.num_entries, 0)
  | n + 1, i, current_size =>
    match g_array_index pipe.entries i with
    | none => none
    | some entry =>
      if to_size_t (to_signed 32 (current_size + entry_size dce entry))
          < size_mul 2 dce.payload_sz / 3 then
        budget_loop dce entry_size pipe n (i + 1)
          (to_signed 32 (current_size + entry_size dce entry))
      else some ((i : Int), CIFSD_DCERPC_ERROR_MORE_DATA)

/-- First part of `ndr_write_array_of_structs` (lines 308-325): the pair
`(max_entry_nr, has_more_data)`. -/
def array_budget {α : Type} (dce : cifsd_dcerpc) (cb : dcerpc_callbacks α)
    (pipe : pipe_data α) : Option (Int × Int) :=
  match test_flag dce CIFSD_DCERPC_FIXED_PAYLOAD_SZ, cb.entry_size with
  | true, some entry_size => budget_loop dce entry_size pipe pipe.num_entries.toNat 0 0
  | _, _ => some (pipe.num_entries, 0)

/-- The two marshalling loops of `ndr_write_array_of_structs` (lines 344-352
and 354-362) for the callback `f`, started at index `i` with `n` iterations
left: `0` and the context when every callback returned 0, else the
invalid-level status and the context at the failing callback. -/
def marshal_loop {α : Type} (f : cifsd_dcerpc → α → Int × cifsd_dcerpc) (entries : List α) :
    Nat → Nat → cifsd_dcerpc → Option (Int × cifsd_dcerpc)
  | 0, _, dce => some (0, dce)
  | n + 1, i, dce =>
    match g_array_index entries i with
    | none => none
    | some entry =>
      if (f dce entry).1 ≠ 0 then some (CIFSD_DCERPC_ERROR_INVALID_LEVEL, (f dce entry).2)
      else marshal_loop f entries n (i + 1) (f dce entry).2

/-- The retirement loop of `ndr_write_array_of_structs` (lines 365-366):
`n` calls of `entry_processed(pipe, 0)`. -/
def processed_loop {α : Type} (f : entry_processed_t α) :
    Nat → pipe_data α → List α → Option (pipe_data α × List α)
  | 0, pipe, released => some (pipe, released)
  | n + 1, pipe, released =>
    match f pipe released 0 with
    | none => none
    | some r => processed_loop f n r.1 r.2

/-- Result of `ndr_write_array_of_structs`: the returned status, the context,
the pipe and the release log. -/
structure array_result (α : Type) where
  status : Int
  dce : cifsd_dcerpc
  pipe : cifsd_rpc_pipe α
  released : List α

/-- Embedding of `ndr_write_array_of_structs`; `none` is an access outside
the entry array. -/
def ndr_write_array_of_structs {α : Type} (cb : dcerpc_callbacks α) (dce : cifsd_dcerpc)
    (pipe : cifsd_rpc_pipe α) (released : List α) : Option (array_result α) :=
  match array_budget dce cb pipe.topipe_data with
  | none => none
  | some (max_entry_nr, has_more_data) =>
    let d1 := (ndr_write_int32 dce max_entry_nr).2
    let d2 := (ndr_write_int32 d1 1).2
    let d3 := (ndr_write_int32 d2 max_entry_nr).2
    if max_entry_nr = 0 then some ⟨CIFSD_DCERPC_ERROR_INVALID_LEVEL, d3, pipe, released⟩
    else
      match marshal_loop cb.entry_rep pipe.entries max_entry_nr.toNat 0 d3 with
      | none => none
      | some (r4, d4) =>
        if r4 ≠ 0 then some ⟨CIFSD_DCERPC_ERROR_INVALID_LEVEL, d4, pipe, released⟩
        else
          match marshal_loop cb.entry_data pipe.entries max_entry_nr.toNat 0 d4 with
          | none => none
          | some (r5, d5) =>
            if r5 ≠ 0 then some ⟨CIFSD_DCERPC_ERROR_INVALID_LEVEL, d5, pipe, released⟩
            else
              match pipe.entry_processed with
              | none => some ⟨has_more_data, d5, pipe, released⟩
              | some f =>
                match processed_loop f max_entry_nr.toNat pipe.topipe_data released with
                | none => none
                | some (p, rel) => some ⟨has_more_data, d5, { pipe with topipe_data := p }, rel⟩

/-! ## The share adapter -/

/-- Share type `SHARE_TYPE_DISKTREE`. -/
def SHARE_TYPE_DISKTREE : Int := 0

/-- Share type `SHARE_TYPE_IPC`. -/
def SHARE_TYPE_IPC : Int := 3

/-- Modelled from the spec: the members of `struct cifsd_share`
(`management/share.h` is absent) that `rpc.c` reads: name and comment (C
strings, without terminator) and the flag word. -/
structure cifsd_share where
  name : List Nat
  comment : List Nat
  flags : Nat
  deriving DecidableEq, Repr

/-- Modelled from the spec: the flag bit `CIFSD_SHARE_FLAG_PIPE` of
`management/share.h` (absent), tested by `__share_type`. -/
def CIFSD_SHARE_FLAG_PIPE : Nat := 1

/-- The function `g_ascii_toupper` of GLib on a byte. -/
def g_ascii_toupper (c : Nat) : Nat := if 97 ≤ c ∧ c ≤ 122 then c - 32 else c

/-- Embedding of `__share_type`; `g_ascii_strncasecmp(name, "IPC", 3)` is 0
when the first three bytes of the name are "IPC" in any letter case. -/
def __share_type (share : cifsd_share) : Int :=
  if share.flags &&& CIFSD_SHARE_FLAG_PIPE ≠ 0 then SHARE_TYPE_IPC
  else if (share.name.take 3).map g_ascii_toupper = [73, 80, 67] then SHARE_TYPE_IPC
  else SHARE_TYPE_DISKTREE

/-- Embedding of `__share_entry_size_ctr0` (a `size_t` expression returned as `int`). -/
def __share_entry_size_ctr0 (_dce : cifsd_dcerpc) (share : cifsd_share) : Int :=
  to_signed 32 ((size_add (size_mul share.name.length 2) (4 * 4) : Nat) : Int)

/-- Embedding of `__share_entry_size_ctr1`. -/
def __share_entry_size_ctr1 (_dce : cifsd_dcerpc) (share : cifsd_share) : Int :=
  to_signed 32 (to_signed 32 ((size_add (size_mul share.name.length 2)
    (size_mul share.comment.length 2) : Nat) : Int) + 9 * 4)

/-- Embedding of `__share_entry_rep_ctr0`. -/
def __share_entry_rep_ctr0 (dce : cifsd_dcerpc) (_share : cifsd_share) : Int × cifsd_dcerpc :=
  ndr_write_int32 dce 1

/-- Embedding of `__share_entry_rep_ctr1`. -/
def __share_entry_rep_ctr1 (dce : cifsd_dcerpc) (share : cifsd_share) : Int × cifsd_dcerpc :=
  let r1 := ndr_write_int32 dce 1
  let r2 := ndr_write_int32 r1.2 (__share_type share)
  let r3 := ndr_write_int32 r2.2 1
  (Int.lor (Int.lor r1.1 r2.1) r3.1, r3.2)

/-- Embedding of `__share_entry_data_ctr0`. -/
def __share_entry_data_ctr0 (conv : g_convert_t) (dce : cifsd_dcerpc) (share : cifsd_share) :
    Int × cifsd_dcerpc :=
  ndr_write_vstring conv dce (some share.name)

/-- Embedding of `__share_entry_data_ctr1`. -/
def __share_entry_data_ctr1 (conv : g_convert_t) (dce : cifsd_dcerpc) (share : cifsd_share) :
    Int × cifsd_dcerpc :=
  let r1 := ndr_write_vstring conv dce (some share.name)
  let r2 := ndr_write_vstring conv r1.2 (some share.comment)
  (Int.lor r1.1 r2.1, r2.2)

/-- Embedding of `__share_entry_processed`: entry `i` is taken out of the
array, the count is decremented and the share is released
(`put_cifsd_share`, recorded in the log). -/
def __share_entry_processed : entry_processed_t cifsd_share := fun pipe released i =>
  if i < 0 then none
  else
    match g_array_index pipe.entries i.toNat with
    | none => none
    | some share =>
      some ({ pipe with entries := pipe.entries.eraseIdx i.toNat
                        num_entries := pipe.num_entries - 1 },
            released ++ [share])

/-- Embedding of `__enum_all_shares`; `get_cifsd_share` (external) tells
whether a reference to the share could be taken. -/
def __enum_all_shares (get_cifsd_share : cifsd_share → Bool) (share : cifsd_share)
    (pipe : cifsd_rpc_pipe cifsd_share) : cifsd_rpc_pipe cifsd_share :=
  if !get_cifsd_share share then pipe
  else { pipe with entries := pipe.entries ++ [share], num_entries := pipe.num_entries + 1 }

/-- Embedding of `rpc_share_enum_all`; `shares` is the content of the share
table in the order `for_each_cifsd_share` (external) visits it. -/
def rpc_share_enum_all (get_cifsd_share : cifsd_share → Bool) (shares : List cifsd_share)
    (pipe : cifsd_rpc_pipe cifsd_share) : Int × cifsd_rpc_pipe cifsd_share :=
  (0, { shares.foldl (fun p share => __enum_all_shares get_cifsd_share share p) pipe with
          entry_processed := some __share_entry_processed })

/-- What the allocator and the absent headers contribute to `dcerpc_alloc`:
whether `malloc` succeeds, the content of the fresh block (left as it is:
`memset(dce->payload, sz, 0x00)` sets zero bytes), whether a later `realloc`
succeeds, and the constant `CIFSD_DCERPC_MAX_PREFERRED_SIZE` of `rpc.h`. -/
structure alloc_env where
  malloc_ok : Bool
  fresh : Nat → Nat
  realloc_ok : Bool
  MAX_PREFERRED_SIZE : Int

/-- Embedding of `dcerpc_alloc`; `none` is the null pointer. -/
def dcerpc_alloc (env : alloc_env) (flags : Nat) (sz : Int) : Option cifsd_dcerpc :=
  if !env.malloc_ok then none
  else
    some { flags := if sz = env.MAX_PREFERRED_SIZE
                    then flags - (flags &&& CIFSD_DCERPC_FIXED_PAYLOAD_SZ) else flags
           offset := 0
           payload_sz := to_size_t sz
           payload := env.fresh
           realloc_ok := env.realloc_ok }

/-- Result of `rpc_srvsvc_share_enum_all`: the returned context (`none` is
the null pointer), the pipe and the release log. -/
structure enum_result where
  dce : Option cifsd_dcerpc
  pipe : cifsd_rpc_pipe cifsd_share
  released : List cifsd_share

/-- The trailer written at label `out` of `rpc_srvsvc_share_enum_all`
(lines 498-503). -/
def share_enum_trailer (dce : cifsd_dcerpc) (pipe : cifsd_rpc_pipe cifsd_share) (ret : Int) :
    cifsd_dcerpc :=
  let d1 := (ndr_write_int32 dce pipe.num_entries).2
  let d2 := if ret = CIFSD_DCERPC_ERROR_MORE_DATA then (ndr_write_int32 d1 1).2
            else (ndr_write_int32 d1 0).2
  (ndr_write_int32 d2 ret).2

/-- Embedding of `rpc_srvsvc_share_enum_all`; the outer `none` is an access
outside the entry array. -/
def rpc_srvsvc_share_enum_all (conv : g_convert_t) (env : alloc_env)
    (pipe : cifsd_rpc_pipe cifsd_share) (released : List cifsd_share)
    (level : Int) (flags : Nat) (max_preferred_size : Int) : Option enum_result :=
  match dcerpc_alloc env flags max_preferred_size with
  | none => some ⟨none, pipe, released⟩
  | some dce =>
    if level = 0 ∨ level = 1 then
      let cb : dcerpc_callbacks cifsd_share :=
        if level = 0 then
          ⟨some __share_entry_size_ctr0, __share_entry_rep_ctr0, __share_entry_data_ctr0 conv⟩
        else
          ⟨some __share_entry_size_ctr1, __share_entry_rep_ctr1, __share_entry_data_ctr1 conv⟩
      let d1 := (ndr_write_union dce level).2
      let d2 := (ndr_write_int32 d1 pipe.num_entries).2
      match ndr_write_array_of_structs cb d2 pipe released with
      | none => none
      | some r => some ⟨some (share_enum_trailer r.dce r.pipe r.status), r.pipe, r.released⟩
    else
      some ⟨some (share_enum_trailer dce pipe CIFSD_DCERPC_ERROR_INVALID_LEVEL), pipe, released⟩

/-! ## The pipe registry -/

/-- A heap block holding a `struct cifsd_rpc_pipe`.  `free` clears `live`; the
content of a block that is not live is not defined, and no definition below
reads it. -/
structure pipe_cell (α : Type) where
  live : Bool
  pipe : cifsd_rpc_pipe α

/-- A node of the GLib hash table: the hash of the key as stored when the node
was added, the key pointer and the value pointer. -/
structure hash_node where
  key_hash : Nat
  key : Nat
  value : Nat
  deriving DecidableEq, Repr

/-- The global state of `rpc.c`: the heap of pipe objects (a pointer is an
index into it), the hash table `pipes_table` and the release log.
`pipes_table` is a `GHashTable` with `g_int_hash` / `g_int_equal`: the key
pointer of a node is the address of a pipe, whose `id` member is the key. -/
structure rpc_state (α : Type) where
  heap : List (pipe_cell α)
  pipes_table : List hash_node
  released : List α

/-- The `unsigned int` read through a key pointer `&(pipe->id)`; `none` when
the block is not allocated (never allocated, or freed): the read is undefined. -/
def key_deref {α : Type} (heap : List (pipe_cell α)) (key : Nat) : Option Nat :=
  match heap.get? key with
  | none => none
  | some c => if c.live then some c.pipe.id else none

/-- The hash the table stores for a key holding `id`: `g_int_hash` yields the
integer itself, and the table replaces the reserved values 0 and 1 by 2. -/
def stored_hash (id : Nat) : Nat := if id < 2 then 2 else id

/-- GLib `g_hash_table_lookup_node` for a search key holding `id`, over the
nodes from index `i` on: `g_int_equal` is called on the key pointer of each
node whose stored hash equals the hash of `id`, until one compares equal.
The outer `none` is a comparison that reads a block that is not allocated,
`some none` is "no such node", `some (some i)` the index of the node. -/
def g_hash_table_lookup_node {α : Type} (heap : List (pipe_cell α)) (id : Nat) :
    List hash_node → Nat → Option (Option Nat)
  | [], _ => some none
  | n :: ns, i =>
    if n.key_hash = stored_hash id then
      match key_deref heap n.key with
      | none => none
      | some k => if k = id then some (some i) else g_hash_table_lookup_node heap id ns (i + 1)
    else g_hash_table_lookup_node heap id ns (i + 1)

/-- GLib `g_hash_table_lookup` with `g_int_equal` for a search key holding
`id`: the value pointer of the node found, else the null pointer (the inner
`none`); the outer `none` is an undefined read. -/
def g_hash_table_lookup {α : Type} (st : rpc_state α) (id : Nat) : Option (Option Nat) :=
  match g_hash_table_lookup_node st.heap id st.pipes_table 0 with
  | none => none
  | some none => some none
  | some (some i) => some ((st.pipes_table.get? i).map (fun n => n.value))

/-- GLib `g_hash_table_insert` (GLib 2.40 and later): when a node with an
equal key exists its value is replaced by the new value (the old key pointer
is kept) and `FALSE` is returned; otherwise a node is added and `TRUE` is
returned.  `none` is an undefined read. -/
def g_hash_table_insert {α : Type} (st : rpc_state α) (key value : Nat) :
    Option (Bool × rpc_state α) :=
  match key_deref st.heap key with
  | none => none
  | some id =>
    match g_hash_table_lookup_node st.heap id st.pipes_table 0 with
    | none => none
    | some (some i) =>
      some (false, { st with pipes_table :=
        match st.pipes_table.get? i with
        | none => st.pipes_table
        | some n => st.pipes_table.set i { n with value := value } })
    | some none =>
      some (true, { st with pipes_table := st.pipes_table ++ [⟨stored_hash id, key, value⟩] })

/-- GLib `g_hash_table_remove`: the node with an equal key, if any, is
removed.  `none` is an undefined read. -/
def g_hash_table_remove {α : Type} (st : rpc_state α) (key : Nat) : Option (rpc_state α) :=
  match key_deref st.heap key with
  | none => none
  | some id =>
    match g_hash_table_lookup_node st.heap id st.pipes_table 0 with
    | none => none
    | some (some i) => some { st with pipes_table := st.pipes_table.eraseIdx i }
    | some none => some st

/-- Embedding of `rpc_pipe_lookup`: the pointer returned (the inner `none` is
the null pointer); the outer `none` is an undefined read. -/
def rpc_pipe_lookup {α : Type} (st : rpc_state α) (id : Nat) : Option (Option Nat) :=
  g_hash_table_lookup st id

/-- The loop `while (pipe->num_entries) pipe->entry_processed(pipe, 0)` of
`__rpc_pipe_free` with `n` iterations allowed; `none` when an access leaves
the entry array or the count is not yet 0 after `n` calls. -/
def drain_loop {α : Type} (f : entry_processed_t α) :
    Nat → pipe_data α → List α → Option (pipe_data α × List α)
  | 0, pipe, released => if pipe.num_entries = 0 then some (pipe, released) else none
  | n + 1, pipe, released =>
    if pipe.num_entries = 0 then some (pipe, released)
    else
      match f pipe released 0 with
      | none => none
      | some r => drain_loop f n r.1 r.2

/-- Embedding of `__rpc_pipe_free` on the pipe at address `p`: the entries
are drained through the callback, then the block is freed.  `none` when the
block is not allocated. -/
def __rpc_pipe_free {α : Type} (st : rpc_state α) (p : Nat) : Option (rpc_state α) :=
  match st.heap.get? p with
  | none => none
  | some c =>
    if !c.live then none
    else
      match c.pipe.entry_processed with
      | none =>
        some { st with heap := st.heap.set p { c with live := false } }
      | some f =>
        match drain_loop f c.pipe.num_entries.toNat c.pipe.topipe_data st.released with
        | none => none
        | some (d, rel) =>
          some { st with
                   heap := st.heap.set p
                     { live := false, pipe := { c.pipe with topipe_data := d } }
                   released := rel }

/-- The value `(unsigned int)-1`. -/
def UINT_MINUS_ONE : Nat := 4294967295

/-- Embedding of `rpc_pipe_free` on the pipe at address `p`. -/
def rpc_pipe_free {α : Type} (st : rpc_state α) (p : Nat) : Option (rpc_state α) :=
  match key_deref st.heap p with
  | none => none
  | some id =>
    if id ≠ UINT_MINUS_ONE then
      match g_hash_table_remove st p with
      | none => none
      | some st1 => __rpc_pipe_free st1 p
    else __rpc_pipe_free st p

/-- Embedding of `rpc_pipe_alloc`: the returned pointer (`none` is the null
pointer) and the new state; the outer `none` is an undefined read or a fault
inside `rpc_pipe_free`.  `malloc_ok` tells whether `malloc` succeeds
(`g_array_new` does not return a null pointer).  The fresh block gets the
next free address. -/
def rpc_pipe_alloc {α : Type} (malloc_ok : Bool) (st : rpc_state α) (id : Nat) :
    Option (Option Nat × rpc_state α) :=
  if !malloc_ok then some (none, st)
  else
    let p := st.heap.length
    let st1 : rpc_state α :=
      { st with heap := st.heap ++ [⟨true, ⟨⟨id, 0, []⟩, none⟩⟩] }
    match g_hash_table_insert st1 p p with
    | none => none
    | some ins =>
      if !ins.1 then
        let st2 : rpc_state α :=
          { ins.2 with heap := ins.2.heap.set p ⟨true, ⟨⟨UINT_MINUS_ONE, 0, []⟩, none⟩⟩ }
        match rpc_pipe_free st2 p with
        | none => none
        | some st3 => some (none, st3)
      else some (some p, ins.2)

/-! ## Concrete objects used by the evaluations below -/

/-- A context with cursor 0, the given flags and capacity, every byte of the
buffer holding `fill`. -/
def ctx (flags payload_sz fill : Nat) : cifsd_dcerpc :=
  { flags := flags, offset := 0, payload_sz := payload_sz, payload := fun _ => fill,
    realloc_ok := true }

/-- The share named "A". -/
def share_A : cifsd_share := ⟨[65], [], 0⟩

/-- The share named "BB". -/
def share_BB : cifsd_share := ⟨[66, 66], [], 0⟩

/-- The share named "CCC". -/
def share_CCC : cifsd_share := ⟨[67, 67, 67], [], 0⟩

/-- The pipe with id 7 as `rpc_pipe_alloc` leaves it: no entries, no callback. -/
def pipe7 : cifsd_rpc_pipe cifsd_share := ⟨⟨7, 0, []⟩, none⟩

/-- The pipe with id 7 after `rpc_share_enum_all` over the shares "A", "BB", "CCC". -/
def pipe7_ABC : cifsd_rpc_pipe cifsd_share :=
  (rpc_share_enum_all (fun _ => true) [share_A, share_BB, share_CCC] pipe7).2

/-- An allocator that grants every request and hands out zeroed memory; the
constant `CIFSD_DCERPC_MAX_PREFERRED_SIZE` is taken to be 65536. -/
def env_ok : alloc_env := ⟨true, fun _ => 0, true, 65536⟩

/-- The 32-bit word the decoder of this file reads at byte offset `o`. -/
def word_at (dce : cifsd_dcerpc) (o : Nat) : Int := (ndr_read_int32 { dce with offset := o }).1

/-- The callbacks installed by `rpc_srvsvc_share_enum_all` at level 0, with the
7-bit transcoder. -/
def callbacks_ctr0 : dcerpc_callbacks cifsd_share :=
  ⟨some __share_entry_size_ctr0, __share_entry_rep_ctr0, __share_entry_data_ctr0 g_convert_7bit⟩

/-- The registry right after `rpc_init`: no pipe. -/
def registry_empty : rpc_state cifsd_share := ⟨[], [], []⟩

/-- The registry holding one pipe: id 7, at address 0, populated with the
shares "A", "BB", "CCC". -/
def registry7 : rpc_state cifsd_share := ⟨[⟨true, pipe7_ABC⟩], [⟨7, 0, 0⟩], []⟩

/-! ## Specification side -/

/-- Specification side: the cumulative estimated size of the first `j` entries. -/
def cumulative_size {α : Type} (size : α → Int) (entries : List α) (j : Nat) : Int :=
  ((entries.take j).map size).sum

/-! ## The header codec -/

/-- Modelled from the spec: the marker `DCERPC_SERIALIZATION_TYPE2` of `rpc.h`
(absent), the serialization type that is not supported ("only type 1
supported"). -/
def DCERPC_SERIALIZATION_TYPE2 : Nat := 2

/-- Modelled from the spec: the marker `DCERPC_SERIALIZATION_LITTLE_ENDIAN` of
`rpc.h` (absent): "byte 1 signals endianness (0 = big, 1 = little)". -/
def DCERPC_SERIALIZATION_LITTLE_ENDIAN : Nat := 1

/-- Modelled from the spec: `struct dcerpc_header` of `rpc.h` (absent): four
one-byte members, the 4-byte data-representation field, and the unsigned
members fragment length (16 bits), authentication length (16 bits) and call
id (32 bits). -/
structure dcerpc_header where
  rpc_vers : Nat
  rpc_vers_minor : Nat
  ptype : Nat
  pfc_flags : Nat
  packed_drep : List Nat
  frag_length : Nat
  auth_length : Nat
  call_id : Nat
  deriving DecidableEq, Repr

/-- Modelled from the spec: `struct dcerpc_request_header` of `rpc.h` (absent):
allocation hint (32-bit), context id and operation number (16-bit each). -/
structure dcerpc_request_header where
  alloc_hint : Nat
  context_id : Nat
  opnum : Nat
  deriving DecidableEq, Repr

/-- The value `0xFFFFFFFF` of `unsigned int`. -/
def UINT_MAX : Nat := 4294967295

/-- The update `flags &= ~bit` on an `unsigned int`. -/
def clear_flag_bits (flags bit : Nat) : Nat := flags &&& (UINT_MAX ^^^ bit)

/-- Embedding of `dcerpc_parser_alloc`; `none` is the null pointer, `pl` the
caller memory. -/
def dcerpc_parser_alloc (malloc_ok : Bool) (pl : Nat → Nat) (sz : Int) : Option cifsd_dcerpc :=
  if !malloc_ok then none
  else
    some { flags := (0 ||| CIFSD_DCERPC_EXTERNAL_PAYLOAD) ||| CIFSD_DCERPC_FIXED_PAYLOAD_SZ
           offset := 0
           payload_sz := to_size_t sz
           payload := pl
           realloc_ok := false }

/-- Embedding of `rpc_srvsvc_parse_dcerpc_hdr`: the status, the context and
the header structure. -/
def rpc_srvsvc_parse_dcerpc_hdr (dce : cifsd_dcerpc) (hdr : dcerpc_header) :
    Int × cifsd_dcerpc × dcerpc_header :=
  let r1 := ndr_read_bytes dce 1
  let r2 := ndr_read_bytes r1.2 1
  let r3 := ndr_read_bytes r2.2 1
  let r4 := ndr_read_bytes r3.2 1
  let r5 := ndr_read_bytes r4.2 4
  let h5 : dcerpc_header :=
    { hdr with rpc_vers := r1.1.getD 0 0, rpc_vers_minor := r2.1.getD 0 0,
               ptype := r3.1.getD 0 0, pfc_flags := r4.1.getD 0 0, packed_drep := r5.1 }
  if h5.packed_drep.getD 0 0 = DCERPC_SERIALIZATION_TYPE2 then (-EINVAL, r5.2, h5)
  else
    let f1 := (r5.2.flags ||| CIFSD_DCERPC_ALIGN4) ||| CIFSD_DCERPC_LITTLE_ENDIAN
    let f2 := if h5.packed_drep.getD 1 0 ≠ DCERPC_SERIALIZATION_LITTLE_ENDIAN
              then clear_flag_bits f1 CIFSD_DCERPC_LITTLE_ENDIAN else f1
    let d6 : cifsd_dcerpc := { r5.2 with flags := f2 }
    let r7 := ndr_read_int16 d6
    let r8 := ndr_read_int16 r7.2
    let r9 := ndr_read_int32 r8.2
    (0, r9.2, { h5 with frag_length := to_unsigned 16 r7.1, auth_length := to_unsigned 16 r8.1,
                        call_id := to_unsigned 32 r9.1 })

/-- Embedding of `rpc_srvsrv_parse_dcerpc_request_hdr`. -/
def rpc_srvsrv_parse_dcerpc_request_hdr (dce : cifsd_dcerpc) (hdr : dcerpc_request_header) :
    Int × cifsd_dcerpc × dcerpc_request_header :=
  let r1 := ndr_read_int32 dce
  let r2 := ndr_read_int16 r1.2
  let r3 := ndr_read_int16 r2.2
  (0, r3.2, { hdr with alloc_hint := to_unsigned 32 r1.1, context_id := to_unsigned 16 r2.1,
                       opnum := to_unsigned 16 r3.1 })

/-- A buffer holding the listed bytes from index 0 on, zero after them. -/
def buffer_of (bytes : List Nat) : Nat → Nat := fun i => bytes.getD i 0

/-- A header structure with every member zero. -/
def hdr_zero : dcerpc_header := ⟨0, 0, 0, 0, [], 0, 0, 0⟩

/-! ## Specification side and concrete objects for the later claims -/

/-- A 20-byte buffer holding a common header: version 5.0, packet type 0, flags
3, data representation `[t, e, 0, 0]`, fragment length 16 at bytes 8-9,
authentication length 32 at bytes 10-11, call id 7 at bytes 12-15, then the
byte 99 at index 16. -/
def header_bytes (t e : Nat) : List Nat :=
  [5, 0, 0, 3, t, e, 0, 0, 16, 0, 32, 0, 7, 0, 0, 0, 99, 0, 0, 0]

/-- A decode context with `LITTLE_ENDIAN` over a buffer holding a string header
with max count `m`, offset 0 and actual count `a`, followed by the UTF-16LE
text "ABC". -/
def vstring_buffer (m a : Nat) : cifsd_dcerpc :=
  { ctx 1 64 0 with
      payload := buffer_of [m, 0, 0, 0, 0, 0, 0, 0, a, 0, 0, 0, 65, 0, 66, 0, 67, 0] }

/-- Specification side: a primitive write, as data: `ndr_write_int16/32/64` of a
value or `ndr_write_bytes` of `sz` bytes. -/
inductive prim_write where
  | int16 (value : Int)
  | int32 (value : Int)
  | int64 (value : Int)
  | bytes (value : List Nat) (sz : Nat)

/-- Specification side: the number of bytes a primitive write stores. -/
def prim_write.size : prim_write → Nat
  | .int16 _ => 2
  | .int32 _ => 4
  | .int64 _ => 8
  | .bytes _ sz => sz

/-- Specification side: the callback `f` applied to the listed entries in order,
each status discarded: the resulting context. -/
def apply_all {α : Type} (f : cifsd_dcerpc → α → Int × cifsd_dcerpc) :
    List α → cifsd_dcerpc → cifsd_dcerpc
  | [], d => d
  | e :: es, d => apply_all f es (f d e).2

/-- Specification side: whether every call of `f` in the run of `apply_all`
returns 0. -/
def all_return_zero {α : Type} (f : cifsd_dcerpc → α → Int × cifsd_dcerpc) :
    List α → cifsd_dcerpc → Bool
  | [], _ => true
  | e :: es, d => decide ((f d e).1 = 0) && all_return_zero f es (f d e).2

/-- The three header writes of `ndr_write_array_of_structs` (lines 335-337)
for the count `k`: max count, offset 1, actual count. -/
def array_header (dce : cifsd_dcerpc) (k : Int) : cifsd_dcerpc :=
  (ndr_write_int32 (ndr_write_int32 (ndr_write_int32 dce k).2 1).2 k).2

/-- Specification side: `x` rounded up to a multiple of 4. -/
def pad4 (x : Nat) : Nat := (x + 3) / 4 * 4

/-- Specification side: the bytes a string takes on the wire under `ALIGN4`:
three 32-bit words and the padded text (one byte per character with
`ASCII_STRING`, two otherwise). -/
def vstring_wire_size (ascii : Bool) (s : List Nat) : Nat :=
  12 + pad4 (if ascii then s.length else 2 * s.length)

/-- Specification side: the bytes one share takes on the wire under `ALIGN4`,
representation block plus data block, at level 0 and at level 1. -/
def share_wire_size (level : Int) (ascii : Bool) (share : cifsd_share) : Nat :=
  if level = 0 then 4 + vstring_wire_size ascii share.name
  else 12 + (vstring_wire_size ascii share.name + vstring_wire_size ascii share.comment)

/-- Specification side: the size of the whole response for the listed shares:
union discriminant (8), entry count (4), array header (12), the shares, and
the trailer (12). -/
def response_size (level : Int) (ascii : Bool) (shares : List cifsd_share) : Nat :=
  36 + (shares.map (share_wire_size level ascii)).sum

/-- The callbacks `rpc_srvsvc_share_enum_all` installs for the level (0 or 1). -/
def share_callbacks (conv : g_convert_t) (level : Int) : dcerpc_callbacks cifsd_share :=
  if level = 0 then
    ⟨some __share_entry_size_ctr0, __share_entry_rep_ctr0, __share_entry_data_ctr0 conv⟩
  else
    ⟨some __share_entry_size_ctr1, __share_entry_rep_ctr1, __share_entry_data_ctr1 conv⟩

/-- Specification side: the context has flags `fl` and capacity `cap`, and its
cursor is a multiple of 4. -/
def ctx_like (fl cap : Nat) (d : cifsd_dcerpc) : Prop :=
  d.flags = fl ∧ d.payload_sz = cap ∧ d.offset % 4 = 0

/-- Specification side: the bytes of one representation block under `ALIGN4`. -/
def rep_wire_size (level : Int) : Nat := if level = 0 then 4 else 12

/-- Specification side: the bytes of one data block under `ALIGN4`. -/
def data_wire_size (level : Int) (ascii : Bool) (share : cifsd_share) : Nat :=
  if level = 0 then vstring_wire_size ascii share.name
  else vstring_wire_size ascii share.name + vstring_wire_size ascii share.comment

/-- Specification side: name and comment of the share are 7-bit text. -/
def ascii_share (share : cifsd_share) : Prop :=
  (∀ b ∈ share.name, b < 128) ∧ (∀ b ∈ share.comment, b < 128)

/-- Specification side: the estimate of `__share_entry_size_ctr0` (level 0) and
`__share_entry_size_ctr1` (level 1) as a natural number. -/
def share_estimate (level : Int) (share : cifsd_share) : Nat :=
  if level = 0 then 2 * share.name.length + 16
  else 2 * share.name.length + 2 * share.comment.length + 36

/-- Decidability of `ascii_share`, for evaluation on concrete shares. -/
instance ascii_share_decidable (share : cifsd_share) : Decidable (ascii_share share) := by
  unfold ascii_share
  exact inferInstance

/-- The share named "AAAAAAA". -/
def share_A7 : cifsd_share := ⟨[65, 65, 65, 65, 65, 65, 65], [], 0⟩

/-- The pipe with id 7 after `rpc_share_enum_all` over shares named "A", "A",
"A", "AAAAAAA". -/
def pipe7_tight : cifsd_rpc_pipe cifsd_share :=
  (rpc_share_enum_all (fun _ => true) [share_A, share_A, share_A, share_A7] pipe7).2

/-- The context `rpc_srvsvc_share_enum_all` hands to the array marshaller: the
allocated context after the union discriminant and the entry count. -/
def share_enum_prologue (dce : cifsd_dcerpc) (level : Int) (num_entries : Int) : cifsd_dcerpc :=
  (ndr_write_int32 (ndr_write_union dce level).2 num_entries).2

/-! ## The array marshaller with a record of the callback invocations -/

/-- An invocation of a callback by `ndr_write_array_of_structs`: `entry_size`,
`entry_rep` or `entry_data` on the entry at index `i` of the pipe, or
`entry_processed(pipe, i)`. -/
inductive callback_call where
  | entry_size (i : Nat)
  | entry_rep (i : Nat)
  | entry_data (i : Nat)
  | entry_processed (i : Int)
  deriving DecidableEq, Repr

/-- The budget loop (lines 312-324) as in `budget_loop`, together with the
invocations of `entry_size` it makes, in order. -/
def budget_loop_calls {α : Type} (dce : cifsd_dcerpc) (entry_size : cifsd_dcerpc → α → Int)
    (pipe : pipe_data α) : Nat → Nat → Int → Option ((Int × Int) × List callback_call)
  | 0, _, _ => some ((pipe.num_entries, 0), [])
  | n + 1, i, current_size =>
    match g_array_index pipe.entries i with
    | none => none
    | some entry =>
      if to_size_t (to_signed 32 (current_size + entry_size dce entry))
          < size_mul 2 dce.payload_sz / 3 then
        (budget_loop_calls dce entry_size pipe n (i + 1)
          (to_signed 32 (current_size + entry_size dce entry))).map
          (fun r => (r.1, callback_call.entry_size i :: r.2))
      else some (((i : Int), CIFSD_DCERPC_ERROR_MORE_DATA), [callback_call.entry_size i])

/-- Lines 308-325 as in `array_budget`, together with the invocations of
`entry_size`. -/
def array_budget_calls {α : Type} (dce : cifsd_dcerpc) (cb : dcerpc_callbacks α)
    (pipe : pipe_data α) : Option ((Int × Int) × List callback_call) :=
  match test_flag dce CIFSD_DCERPC_FIXED_PAYLOAD_SZ, cb.entry_size with
  | true, some entry_size => budget_loop_calls dce entry_size pipe pipe.num_entries.toNat 0 0
  | _, _ => some ((pipe.num_entries, 0), [])

/-- A marshalling loop (lines 344-352 or 354-362) as in `marshal_loop`,
together with the invocations of the callback `f` it makes, in order; `tag`
names the callback. -/
def marshal_loop_calls {α : Type} (f : cifsd_dcerpc → α → Int × cifsd_dcerpc)
    (tag : Nat → callback_call) (entries : List α) :
    Nat → Nat → cifsd_dcerpc → Option ((Int × cifsd_dcerpc) × List callback_call)
  | 0, _, dce => some ((0, dce), [])
  | n + 1, i, dce =>
    match g_array_index entries i with
    | none => none
    | some entry =>
      if (f dce entry).1 ≠ 0 then
        some ((CIFSD_DCERPC_ERROR_INVALID_LEVEL, (f dce entry).2), [tag i])
      else
        (marshal_loop_calls f tag entries n (i + 1) (f dce entry).2).map
          (fun r => (r.1, tag i :: r.2))

/-- The retirement loop (lines 365-366) as in `processed_loop`, together with
the invocations of `entry_processed` it makes. -/
def processed_loop_calls {α : Type} (f : entry_processed_t α) :
    Nat → pipe_data α → List α → Option ((pipe_data α × List α) × List callback_call)
  | 0, pipe, released => some ((pipe, released), [])
  | n + 1, pipe, released =>
    match f pipe released 0 with
    | none => none
    | some r =>
      (processed_loop_calls f n r.1 r.2).map
        (fun s => (s.1, callback_call.entry_processed 0 :: s.2))

/-- Embedding of `ndr_write_array_of_structs` as in the definition of that
name, together with every callback invocation of the call, in order. -/
def ndr_write_array_of_structs_calls {α : Type} (cb : dcerpc_callbacks α) (dce : cifsd_dcerpc)
    (pipe : cifsd_rpc_pipe α) (released : List α) :
    Option (array_result α × List callback_call) :=
  match array_budget_calls dce cb pipe.topipe_data with
  | none => none
  | some ((max_entry_nr, has_more_data), c1) =>
    let d1 := (ndr_write_int32 dce max_entry_nr).2
    let d2 := (ndr_write_int32 d1 1).2
    let d3 := (ndr_write_int32 d2 max_entry_nr).2
    if max_entry_nr = 0 then some (⟨CIFSD_DCERPC_ERROR_INVALID_LEVEL, d3, pipe, released⟩, c1)
    else
      match marshal_loop_calls cb.entry_rep callback_call.entry_rep pipe.entries
          max_entry_nr.toNat 0 d3 with
      | none => none
      | some ((r4, d4), c4) =>
        if r4 ≠ 0 then some (⟨CIFSD_DCERPC_ERROR_INVALID_LEVEL, d4, pipe, released⟩, c1 ++ c4)
        else
          match marshal_loop_calls cb.entry_data callback_call.entry_data pipe.entries
              max_entry_nr.toNat 0 d4 with
          | none => none
          | some ((r5, d5), c5) =>
            if r5 ≠ 0 then
              some (⟨CIFSD_DCERPC_ERROR_INVALID_LEVEL, d5, pipe, released⟩, c1 ++ c4 ++ c5)
            else
              match pipe.entry_processed with
              | none => some (⟨has_more_data, d5, pipe, released⟩, c1 ++ c4 ++ c5)
              | some f =>
                match processed_loop_calls f max_entry_nr.toNat pipe.topipe_data released with
                | none => none
                | some ((p, rel), c6) =>
                  some (⟨has_more_data, d5, { pipe with topipe_data := p }, rel⟩,
                    c1 ++ c4 ++ c5 ++ c6)

/-! ## Auxiliary lemmas -/

theorem g_array_index_of_lt {α : Type} (l : List α) (i : Nat) (h : i < l.length) :
    g_array_index l i = some (l.get ⟨i, h⟩) := by
  simp [g_array_index, List.getElem?_eq_getElem h]

theorem processed_loop_share (k : Nat) :
    ∀ (p : pipe_data cifsd_share) (rel : List cifsd_share), k ≤ p.entries.length →
      processed_loop __share_entry_processed k p rel
        = some ({ p with entries := p.entries.drop k, num_entries := p.num_entries - (k : Int) },
                rel ++ p.entries.take k) := by
  induction k with
  | zero => intro p rel _; simp [processed_loop]
  | succ k ih =>
    intro p rel hk
    obtain ⟨id, num, entries⟩ := p
    cases entries with
    | nil => simp at hk
    | cons e es =>
      have hk2 : k ≤ es.length := by simpa using hk
      have h := ih ⟨id, num - 1, es⟩ (rel ++ [e]) hk2
      simp only [processed_loop, __share_entry_processed, g_array_index]
      simp at h ⊢
      rw [h]
      simp
      omega

theorem marshal_loop_total {α : Type} (f : cifsd_dcerpc → α → Int × cifsd_dcerpc)
    (entries : List α) (n : Nat) :
    ∀ (i : Nat) (d : cifsd_dcerpc), i + n ≤ entries.length →
      ∃ r, marshal_loop f entries n i d = some r := by
  induction n with
  | zero => intro i d _; exact ⟨_, rfl⟩
  | succ n ih =>
    intro i d h
    have hi : i < entries.length := by omega
    simp only [marshal_loop, g_array_index_of_lt entries i hi]
    split
    · exact ⟨_, rfl⟩
    · exact ih (i + 1) _ (by omega)

theorem budget_loop_total {α : Type} (dce : cifsd_dcerpc) (size : cifsd_dcerpc → α → Int)
    (pipe : pipe_data α) (hinv : pipe.num_entries = (pipe.entries.length : Int)) (n : Nat) :
    ∀ (i : Nat) (cur : Int), i + n = pipe.entries.length →
      ∃ (k : Nat) (hm : Int), budget_loop dce size pipe n i cur = some ((k : Int), hm)
        ∧ k ≤ pipe.entries.length
        ∧ (hm = 0 ∨ hm = CIFSD_DCERPC_ERROR_MORE_DATA) := by
  induction n with
  | zero =>
    intro i cur h
    exact ⟨pipe.entries.length, 0, by simp [budget_loop, hinv], le_refl _, Or.inl rfl⟩
  | succ n ih =>
    intro i cur h
    have hi : i < pipe.entries.length := by omega
    simp only [budget_loop, g_array_index_of_lt pipe.entries i hi]
    split
    · exact ih (i + 1) _ (by omega)
    · exact ⟨i, _, rfl, by omega, Or.inr rfl⟩

theorem array_budget_total {α : Type} (dce : cifsd_dcerpc) (cb : dcerpc_callbacks α)
    (pipe : pipe_data α) (hinv : pipe.num_entries = (pipe.entries.length : Int)) :
    ∃ (k : Nat) (hm : Int), array_budget dce cb pipe = some ((k : Int), hm)
      ∧ k ≤ pipe.entries.length
      ∧ (hm = 0 ∨ hm = CIFSD_DCERPC_ERROR_MORE_DATA) := by
  unfold array_budget
  split
  · rename_i sz _ _
    have := budget_loop_total dce sz pipe hinv pipe.entries.length 0 0 (by simp)
    simpa [hinv] using this
  · exact ⟨pipe.entries.length, 0, by simp [hinv], le_refl _, Or.inl rfl⟩

theorem cumulative_size_succ {α : Type} (size : α → Int) (entries : List α) (i : Nat)
    (h : i < entries.length) :
    cumulative_size size entries (i + 1)
      = cumulative_size size entries i + size (entries.get ⟨i, h⟩) := by
  unfold cumulative_size
  rw [List.take_succ, List.map_append, List.sum_append]
  have h2 : entries[i]? = some (entries.get ⟨i, h⟩) := List.getElem?_eq_getElem h
  rw [h2]
  simp only [Option.toList, List.map_cons, List.map_nil, List.sum_cons, List.sum_nil, add_zero]

theorem cumulative_size_nonneg {α : Type} (size : α → Int) (entries : List α)
    (hnn : ∀ e ∈ entries, 0 ≤ size e) (j : Nat) : 0 ≤ cumulative_size size entries j := by
  unfold cumulative_size
  apply List.sum_nonneg
  intro x hx
  obtain ⟨e, he, rfl⟩ := List.mem_map.mp hx
  exact hnn e (List.mem_of_mem_take he)

theorem cumulative_size_le_total {α : Type} (size : α → Int) (entries : List α)
    (hnn : ∀ e ∈ entries, 0 ≤ size e) (j : Nat) :
    cumulative_size size entries j ≤ (entries.map size).sum := by
  have h : (entries.map size).sum
      = cumulative_size size entries j + ((entries.drop j).map size).sum := by
    unfold cumulative_size
    rw [← List.sum_append, ← List.map_append, List.take_append_drop]
  have h2 : 0 ≤ ((entries.drop j).map size).sum := by
    apply List.sum_nonneg
    intro x hx
    obtain ⟨e, he, rfl⟩ := List.mem_map.mp hx
    exact hnn e (List.mem_of_mem_drop he)
  omega

theorem to_signed_32_small (x : Int) (h0 : 0 ≤ x) (h1 : x < 2 ^ 31) : to_signed 32 x = x := by
  unfold to_signed
  have h2 : x % (2 : Int) ^ 32 = x := Int.emod_eq_of_lt h0 (by omega)
  have h3 : x < (2 : Int) ^ (32 - 1) := h1
  rw [h2, if_pos h3]

theorem to_size_t_small (x : Int) (h0 : 0 ≤ x) (h1 : x < 2 ^ 31) :
    ((to_size_t x : Nat) : Int) = x := by
  unfold to_size_t SIZE_MOD
  have : x % ((2 ^ 64 : Nat) : Int) = x := Int.emod_eq_of_lt h0 (by norm_num; omega)
  rw [this]
  exact Int.toNat_of_nonneg h0

theorem budget_loop_spec {α : Type} (dce : cifsd_dcerpc) (size : cifsd_dcerpc → α → Int)
    (pipe : pipe_data α) (hinv : pipe.num_entries = (pipe.entries.length : Int))
    (hnn : ∀ e ∈ pipe.entries, 0 ≤ size dce e)
    (hsum : (pipe.entries.map (size dce)).sum < 2 ^ 31) (n : Nat) :
    ∀ (i : Nat), i + n = pipe.entries.length →
      ∃ (k : Nat),
        budget_loop dce size pipe n i (cumulative_size (size dce) pipe.entries i)
          = some ((k : Int),
              if k < pipe.entries.length then CIFSD_DCERPC_ERROR_MORE_DATA else 0)
        ∧ i ≤ k ∧ k ≤ pipe.entries.length
        ∧ (∀ j, i < j → j ≤ k →
            cumulative_size (size dce) pipe.entries j < ((size_mul 2 dce.payload_sz / 3 : Nat) : Int))
        ∧ (k < pipe.entries.length →
            ((size_mul 2 dce.payload_sz / 3 : Nat) : Int)
              ≤ cumulative_size (size dce) pipe.entries (k + 1)) := by
  induction n with
  | zero =>
    intro i h
    refine ⟨pipe.entries.length, ?_, by omega, le_refl _, ?_, ?_⟩
    · simp [budget_loop, hinv]
    · intro j h1 h2; omega
    · intro h1; omega
  | succ n ih =>
    intro i h
    have hi : i < pipe.entries.length := by omega
    have hc := cumulative_size_succ (size dce) pipe.entries i hi
    have h0 := cumulative_size_nonneg (size dce) pipe.entries hnn (i + 1)
    have h1 := cumulative_size_le_total (size dce) pipe.entries hnn (i + 1)
    have hs : to_signed 32 (cumulative_size (size dce) pipe.entries i
        + size dce (pipe.entries.get ⟨i, hi⟩))
        = cumulative_size (size dce) pipe.entries (i + 1) := by
      rw [← hc]; exact to_signed_32_small _ h0 (by omega)
    have ht := to_size_t_small _ h0 (lt_of_le_of_lt h1 hsum)
    simp only [budget_loop, g_array_index_of_lt pipe.entries i hi, hs]
    by_cases hlt : to_size_t (cumulative_size (size dce) pipe.entries (i + 1))
        < size_mul 2 dce.payload_sz / 3
    · simp only [hlt, if_true]
      obtain ⟨k, hk1, hk2, hk3, hk4, hk5⟩ := ih (i + 1) (by omega)
      refine ⟨k, hk1, by omega, hk3, ?_, hk5⟩
      intro j hj1 hj2
      by_cases hj : j = i + 1
      · subst hj
        rw [← ht]
        exact_mod_cast hlt
      · exact hk4 j (by omega) hj2
    · simp only [hlt, if_false]
      refine ⟨i, ?_, le_refl _, by omega, ?_, ?_⟩
      · simp [hi]
      · intro j hj1 hj2; omega
      · intro _
        rw [← ht]
        exact_mod_cast (not_lt.mp hlt)

theorem align_offset_flags (d : cifsd_dcerpc) : (align_offset d).flags = d.flags := by
  unfold align_offset
  split
  · rfl
  · split <;> rfl

theorem ndr_read_int_flags (n : Nat) (d : cifsd_dcerpc) : (ndr_read_int n d).2.flags = d.flags := by
  simp only [ndr_read_int, align_offset_flags]

theorem ndr_read_bytes_flags (d : cifsd_dcerpc) (sz : Nat) :
    (ndr_read_bytes d sz).2.flags = d.flags := rfl

theorem or_bit_ne_zero (x b i : Nat) (hb : b.testBit i = true) : (x ||| b) ≠ 0 := by
  intro h
  have h2 : (x ||| b).testBit i = true := by
    rw [Nat.testBit_or, hb, Bool.or_true]
  rw [h] at h2
  simp at h2

theorem marshal_loop_eq {α : Type} (f : cifsd_dcerpc → α → Int × cifsd_dcerpc)
    (entries : List α) (n : Nat) :
    ∀ (i : Nat) (d : cifsd_dcerpc), i + n ≤ entries.length →
      all_return_zero f ((entries.drop i).take n) d = true →
      marshal_loop f entries n i d = some (0, apply_all f ((entries.drop i).take n) d) := by
  induction n with
  | zero => intro i d _ _; simp [marshal_loop, apply_all]
  | succ n ih =>
    intro i d h hz
    have hi : i < entries.length := by omega
    rw [List.drop_eq_getElem_cons hi] at hz ⊢
    simp only [List.take_succ_cons, all_return_zero, Bool.and_eq_true, decide_eq_true_eq] at hz
    simp only [List.take_succ_cons, apply_all, marshal_loop, g_array_index_of_lt entries i hi,
      List.get_eq_getElem, hz.1, ne_eq, not_true_eq_false, if_false]
    exact ih (i + 1) _ (by omega) hz.2

theorem size_sub_of_le (a b : Nat) (h : b ≤ a) (ha : a < 2 ^ 64) : size_sub a b = a - b := by
  unfold size_sub to_size_t SIZE_MOD
  have h1 : ((a : Int) - (b : Int)) = ((a - b : Nat) : Int) := by omega
  rw [h1]
  have h2 : ((a - b : Nat) : Int) % ((2 ^ 64 : Nat) : Int) = ((a - b : Nat) : Int) := by
    apply Int.emod_eq_of_lt
    · omega
    · have : a - b < 2 ^ 64 := by omega
      exact_mod_cast this
  rw [h2]
  exact Int.toNat_ofNat _

theorem try_realloc_payload_room (d : cifsd_dcerpc) (n : Nat) (hroom : d.offset + n < d.payload_sz)
    (hsz : d.payload_sz < 2 ^ 64) : try_realloc_payload d n = (0, d) := by
  unfold try_realloc_payload
  rw [size_sub_of_le _ _ (by omega) hsz]
  have : d.offset < d.payload_sz - n := by omega
  simp [this]

theorem test_flag_congr (d1 d2 : cifsd_dcerpc) (h : d1.flags = d2.flags) (bit : Nat) :
    test_flag d1 bit = test_flag d2 bit := by
  simp only [test_flag, h]

theorem align_offset_aligned4 (d : cifsd_dcerpc) (h4 : test_flag d CIFSD_DCERPC_ALIGN4 = true)
    (h8 : test_flag d CIFSD_DCERPC_ALIGN8 = false) (x : Nat) (hx : x + 8 ≤ 2 ^ 64) (p : Nat → Nat) :
    align_offset ⟨d.flags, x, d.payload_sz, p, d.realloc_ok⟩
      = ⟨d.flags, pad4 x, d.payload_sz, p, d.realloc_ok⟩ := by
  have e8 : test_flag (⟨d.flags, x, d.payload_sz, p, d.realloc_ok⟩ : cifsd_dcerpc)
      CIFSD_DCERPC_ALIGN8 = false := by
    rw [← h8]; exact test_flag_congr _ _ rfl _
  have e4 : test_flag (⟨d.flags, x, d.payload_sz, p, d.realloc_ok⟩ : cifsd_dcerpc)
      CIFSD_DCERPC_ALIGN4 = true := by
    rw [← h4]; exact test_flag_congr _ _ rfl _
  unfold align_offset
  rw [e8, e4]
  simp only [Bool.false_eq_true, if_false, if_true]
  have : ALIGN x 4 = pad4 x := by
    unfold ALIGN pad4 size_add SIZE_MOD
    split <;> omega
  rw [this]

theorem ndr_write_int32_fits (d : cifsd_dcerpc) (v : Int)
    (h4 : test_flag d CIFSD_DCERPC_ALIGN4 = true) (h8 : test_flag d CIFSD_DCERPC_ALIGN8 = false)
    (hal : d.offset % 4 = 0) (hroom : d.offset + 4 < d.payload_sz) (hsz : d.payload_sz < 2 ^ 63) :
    ∃ p, ndr_write_int32 d v = (0, ⟨d.flags, d.offset + 4, d.payload_sz, p, d.realloc_ok⟩) := by
  unfold ndr_write_int32 ndr_write_int
  rw [try_realloc_payload_room d 4 hroom (by omega)]
  simp only [ne_eq, not_true_eq_false, if_false]
  have ho : size_add d.offset 4 = d.offset + 4 := by
    unfold size_add SIZE_MOD
    exact Nat.mod_eq_of_lt (by omega)
  rw [ho, align_offset_aligned4 d h4 h8 (d.offset + 4) (by omega)]
  have : pad4 (d.offset + 4) = d.offset + 4 := by unfold pad4; omega
  rw [this]
  exact ⟨_, rfl⟩

theorem ndr_write_bytes_fits (d : cifsd_dcerpc) (value : List Nat) (sz : Nat)
    (h4 : test_flag d CIFSD_DCERPC_ALIGN4 = true) (h8 : test_flag d CIFSD_DCERPC_ALIGN8 = false)
    (hal : d.offset % 4 = 0) (hroom : d.offset + 2 < d.payload_sz) (hsz : d.payload_sz < 2 ^ 63)
    (hlen : sz < 2 ^ 62) :
    ∃ p, ndr_write_bytes d value sz
      = (0, ⟨d.flags, d.offset + pad4 sz, d.payload_sz, p, d.realloc_ok⟩) := by
  unfold ndr_write_bytes
  rw [try_realloc_payload_room d 2 hroom (by omega)]
  simp only [ne_eq, not_true_eq_false, if_false]
  have ho : size_add d.offset sz = d.offset + sz := by
    unfold size_add SIZE_MOD
    exact Nat.mod_eq_of_lt (by omega)
  rw [ho, align_offset_aligned4 d h4 h8 (d.offset + sz) (by omega)]
  have : pad4 (d.offset + sz) = d.offset + pad4 sz := by unfold pad4; omega
  rw [this]
  exact ⟨_, rfl⟩

theorem range_map_getD (s : List Nat) :
    (List.range s.length).map (fun i => s.getD i 0) = s := by
  apply List.ext_getElem
  · simp
  · intro n h1 h2
    simp at h1
    simp [List.getD_eq_getElem?_getD, h1]

theorem g_convert_7bit_ascii (s : List Nat) (h : ∀ b ∈ s, b < 128) (cs : charset) :
    g_convert_7bit (fun i => s.getD i 0) (s.length : Int) cs charset.CHARSET_DEFAULT
      = some (encode_7bit cs s) := by
  unfold g_convert_7bit
  have h0 : ¬ ((s.length : Int) < 0) := by omega
  simp only [h0, if_false, Int.toNat_ofNat, range_map_getD]
  have hall : s.all (fun b => decide (b < 128)) = true := by
    rw [List.all_eq_true]
    intro b hb
    exact decide_eq_true (h b hb)
  simp [decode_7bit, hall]

theorem encode_7bit_length (cs : charset) (s : List Nat) :
    (encode_7bit cs s).length = if cs = charset.CHARSET_UTF8 ∨ cs = charset.CHARSET_DEFAULT
      then s.length else 2 * s.length := by
  cases cs with
  | CHARSET_UTF16LE =>
    simp only [encode_7bit]
    induction s with
    | nil => simp
    | cons a t ih => simp [List.flatMap_cons] at ih ⊢; omega
  | CHARSET_UTF16BE =>
    simp only [encode_7bit]
    induction s with
    | nil => simp
    | cons a t ih => simp [List.flatMap_cons] at ih ⊢; omega
  | CHARSET_UTF8 => simp [encode_7bit]
  | CHARSET_DEFAULT => simp [encode_7bit]

theorem vstring_out_length (d : cifsd_dcerpc) (s : List Nat) :
    (encode_7bit (vstring_charset d) s).length
      = if test_flag d CIFSD_DCERPC_ASCII_STRING then s.length else 2 * s.length := by
  rw [encode_7bit_length]
  unfold vstring_charset
  cases test_flag d CIFSD_DCERPC_ASCII_STRING with
  | true => simp
  | false =>
    cases test_flag d CIFSD_DCERPC_LITTLE_ENDIAN with
    | true => simp
    | false => simp

theorem ndr_write_vstring_fits (d : cifsd_dcerpc) (s : List Nat) (hascii : ∀ b ∈ s, b < 128)
    (h4 : test_flag d CIFSD_DCERPC_ALIGN4 = true) (h8 : test_flag d CIFSD_DCERPC_ALIGN8 = false)
    (hal : d.offset % 4 = 0) (hroom : d.offset + 14 < d.payload_sz) (hsz : d.payload_sz < 2 ^ 63)
    (hlen : s.length < 2 ^ 60) :
    ∃ p, ndr_write_vstring g_convert_7bit d (some s)
      = (0, ⟨d.flags, d.offset + vstring_wire_size (test_flag d CIFSD_DCERPC_ASCII_STRING) s,
             d.payload_sz, p, d.realloc_ok⟩) := by
  unfold ndr_write_vstring
  simp only [Option.getD_some, g_convert_7bit_ascii s hascii]
  obtain ⟨p1, e1⟩ := ndr_write_int32_fits d
    (to_signed 32 (((encode_7bit (vstring_charset d) s).length / 2 : Nat) : Int)) h4 h8 hal
    (by omega) hsz
  rw [e1]
  simp only []
  obtain ⟨p2, e2⟩ := ndr_write_int32_fits
    ⟨d.flags, d.offset + 4, d.payload_sz, p1, d.realloc_ok⟩ 0
    (by rw [← h4]; exact test_flag_congr _ _ rfl _)
    (by rw [← h8]; exact test_flag_congr _ _ rfl _)
    (by show (d.offset + 4) % 4 = 0; omega) (by show d.offset + 4 + 4 < d.payload_sz; omega) hsz
  rw [e2]
  simp only []
  obtain ⟨p3, e3⟩ := ndr_write_int32_fits
    ⟨d.flags, d.offset + 4 + 4, d.payload_sz, p2, d.realloc_ok⟩
    (to_signed 32 (((encode_7bit (vstring_charset d) s).length / 2 : Nat) : Int))
    (by rw [← h4]; exact test_flag_congr _ _ rfl _)
    (by rw [← h8]; exact test_flag_congr _ _ rfl _)
    (by show (d.offset + 4 + 4) % 4 = 0; omega)
    (by show d.offset + 4 + 4 + 4 < d.payload_sz; omega) hsz
  rw [e3]
  simp only []
  have hout := vstring_out_length d s
  obtain ⟨p4, e4⟩ := ndr_write_bytes_fits
    ⟨d.flags, d.offset + 4 + 4 + 4, d.payload_sz, p3, d.realloc_ok⟩
    (encode_7bit (vstring_charset d) s) (encode_7bit (vstring_charset d) s).length
    (by rw [← h4]; exact test_flag_congr _ _ rfl _)
    (by rw [← h8]; exact test_flag_congr _ _ rfl _)
    (by show (d.offset + 4 + 4 + 4) % 4 = 0; omega)
    (by show d.offset + 4 + 4 + 4 + 2 < d.payload_sz; omega) hsz
    (by rw [hout]; split <;> omega)
  rw [e4]
  refine ⟨p4, ?_⟩
  have hst : Int.lor (Int.lor (Int.lor 0 0) 0) 0 = 0 := by decide
  simp only [hst, hout, vstring_wire_size]
  congr 2
  omega

theorem ctx_like_flag (fl cap : Nat) (d : cifsd_dcerpc) (hd : ctx_like fl cap d) (bit : Nat) :
    test_flag d bit = (fl &&& bit != 0) := by
  unfold test_flag
  rw [hd.1]

theorem marshal_loop_fits (f : cifsd_dcerpc → cifsd_share → Int × cifsd_dcerpc)
    (cost : cifsd_share → Nat) (fl cap : Nat) (entries : List cifsd_share)
    (hf : ∀ d e, e ∈ entries → ctx_like fl cap d → d.offset + cost e + 12 < cap →
      (f d e).1 = 0 ∧ ctx_like fl cap (f d e).2 ∧ (f d e).2.offset = d.offset + cost e)
    (n : Nat) :
    ∀ (i : Nat) (d : cifsd_dcerpc), i + n ≤ entries.length → ctx_like fl cap d →
      d.offset + (((entries.drop i).take n).map cost).sum + 12 < cap →
      ∃ d2, marshal_loop f entries n i d = some (0, d2) ∧ ctx_like fl cap d2
        ∧ d2.offset = d.offset + (((entries.drop i).take n).map cost).sum := by
  induction n with
  | zero =>
    intro i d _ hd _
    exact ⟨d, rfl, hd, by simp⟩
  | succ n ih =>
    intro i d h hd hroom
    have hi : i < entries.length := by omega
    rw [List.drop_eq_getElem_cons hi] at hroom ⊢
    simp only [List.take_succ_cons, List.map_cons, List.sum_cons] at hroom ⊢
    have hmem : entries[i] ∈ entries := List.getElem_mem hi
    obtain ⟨s1, s2, s3⟩ := hf d entries[i] hmem hd (by omega)
    simp only [marshal_loop, g_array_index_of_lt entries i hi, List.get_eq_getElem, s1, ne_eq,
      not_true_eq_false, if_false]
    obtain ⟨d2, e1, e2, e3⟩ := ih (i + 1) (f d entries[i]).2 (by omega) s2 (by rw [s3]; omega)
    exact ⟨d2, e1, e2, by rw [e3, s3]; omega⟩

theorem rep_fits (level : Int) (hlevel : level = 0 ∨ level = 1) (fl cap : Nat)
    (hfl4 : (fl &&& CIFSD_DCERPC_ALIGN4 != 0) = true)
    (hfl8 : (fl &&& CIFSD_DCERPC_ALIGN8 != 0) = false) (hcap : cap < 2 ^ 63)
    (d : cifsd_dcerpc) (e : cifsd_share) (hd : ctx_like fl cap d)
    (hroom : d.offset + rep_wire_size level + 12 < cap) :
    ((share_callbacks g_convert_7bit level).entry_rep d e).1 = 0
    ∧ ctx_like fl cap ((share_callbacks g_convert_7bit level).entry_rep d e).2
    ∧ ((share_callbacks g_convert_7bit level).entry_rep d e).2.offset
        = d.offset + rep_wire_size level := by
  have f4 : test_flag d CIFSD_DCERPC_ALIGN4 = true := by rw [ctx_like_flag fl cap d hd]; exact hfl4
  have f8 : test_flag d CIFSD_DCERPC_ALIGN8 = false := by rw [ctx_like_flag fl cap d hd]; exact hfl8
  obtain ⟨hd1, hd2, hd3⟩ := hd
  rcases hlevel with rfl | rfl
  · simp only [share_callbacks, rep_wire_size, if_true, __share_entry_rep_ctr0] at hroom ⊢
    obtain ⟨p, e1⟩ := ndr_write_int32_fits d 1 f4 f8 hd3 (by omega) (by omega)
    rw [e1]
    exact ⟨rfl, ⟨hd1, hd2, by show (d.offset + 4) % 4 = 0; omega⟩, rfl⟩
  · have h10 : ¬ ((1 : Int) = 0) := by decide
    simp only [share_callbacks, rep_wire_size, h10, if_false, __share_entry_rep_ctr1] at hroom ⊢
    obtain ⟨p1, e1⟩ := ndr_write_int32_fits d 1 f4 f8 hd3 (by omega) (by omega)
    rw [e1]
    simp only []
    obtain ⟨p2, e2⟩ := ndr_write_int32_fits
      ⟨d.flags, d.offset + 4, d.payload_sz, p1, d.realloc_ok⟩ (__share_type e)
      (by rw [← f4]; exact test_flag_congr _ _ rfl _)
      (by rw [← f8]; exact test_flag_congr _ _ rfl _)
      (by show (d.offset + 4) % 4 = 0; omega)
      (by show d.offset + 4 + 4 < d.payload_sz; omega) (by show d.payload_sz < 2 ^ 63; omega)
    rw [e2]
    simp only []
    obtain ⟨p3, e3⟩ := ndr_write_int32_fits
      ⟨d.flags, d.offset + 4 + 4, d.payload_sz, p2, d.realloc_ok⟩ 1
      (by rw [← f4]; exact test_flag_congr _ _ rfl _)
      (by rw [← f8]; exact test_flag_congr _ _ rfl _)
      (by show (d.offset + 4 + 4) % 4 = 0; omega)
      (by show d.offset + 4 + 4 + 4 < d.payload_sz; omega) (by show d.payload_sz < 2 ^ 63; omega)
    rw [e3]
    have hst : Int.lor (Int.lor 0 0) 0 = 0 := by decide
    exact ⟨hst, ⟨hd1, hd2, by show (d.offset + 4 + 4 + 4) % 4 = 0; omega⟩,
      by show d.offset + 4 + 4 + 4 = d.offset + 12; omega⟩

theorem vstring_wire_size_ge (ascii : Bool) (s : List Nat) :
    12 ≤ vstring_wire_size ascii s ∧ vstring_wire_size ascii s % 4 = 0 := by
  unfold vstring_wire_size pad4
  constructor <;> omega

theorem data_fits (level : Int) (hlevel : level = 0 ∨ level = 1) (fl cap : Nat)
    (hfl4 : (fl &&& CIFSD_DCERPC_ALIGN4 != 0) = true)
    (hfl8 : (fl &&& CIFSD_DCERPC_ALIGN8 != 0) = false) (hcap : cap < 2 ^ 63)
    (d : cifsd_dcerpc) (e : cifsd_share) (he : ascii_share e)
    (hl : e.name.length < 2 ^ 31 ∧ e.comment.length < 2 ^ 31) (hd : ctx_like fl cap d)
    (hroom : d.offset
      + data_wire_size level (fl &&& CIFSD_DCERPC_ASCII_STRING != 0) e + 12 < cap) :
    ((share_callbacks g_convert_7bit level).entry_data d e).1 = 0
    ∧ ctx_like fl cap ((share_callbacks g_convert_7bit level).entry_data d e).2
    ∧ ((share_callbacks g_convert_7bit level).entry_data d e).2.offset
        = d.offset + data_wire_size level (fl &&& CIFSD_DCERPC_ASCII_STRING != 0) e := by
  have f4 : test_flag d CIFSD_DCERPC_ALIGN4 = true := by rw [ctx_like_flag fl cap d hd]; exact hfl4
  have f8 : test_flag d CIFSD_DCERPC_ALIGN8 = false := by rw [ctx_like_flag fl cap d hd]; exact hfl8
  have fa := ctx_like_flag fl cap d hd CIFSD_DCERPC_ASCII_STRING
  obtain ⟨hd1, hd2, hd3⟩ := hd
  obtain ⟨a1, a2⟩ := he
  obtain ⟨a3, a4⟩ := hl
  have g1 := vstring_wire_size_ge (fl &&& CIFSD_DCERPC_ASCII_STRING != 0) e.name
  have g2 := vstring_wire_size_ge (fl &&& CIFSD_DCERPC_ASCII_STRING != 0) e.comment
  rcases hlevel with rfl | rfl
  · simp only [share_callbacks, data_wire_size, if_true, __share_entry_data_ctr0] at hroom ⊢
    obtain ⟨p, e1⟩ := ndr_write_vstring_fits d e.name a1 f4 f8 hd3 (by omega) (by omega)
      (by omega)
    rw [e1, fa]
    exact ⟨rfl, ⟨hd1, hd2, by
      show (d.offset + vstring_wire_size (fl &&& CIFSD_DCERPC_ASCII_STRING != 0) e.name) % 4 = 0
      omega⟩, rfl⟩
  · have h10 : ¬ ((1 : Int) = 0) := by decide
    simp only [share_callbacks, data_wire_size, h10, if_false, __share_entry_data_ctr1] at hroom ⊢
    obtain ⟨p1, e1⟩ := ndr_write_vstring_fits d e.name a1 f4 f8 hd3 (by omega) (by omega)
      (by omega)
    rw [e1, fa]
    simp only []
    obtain ⟨p2, e2⟩ := ndr_write_vstring_fits
      ⟨d.flags, d.offset + vstring_wire_size (fl &&& CIFSD_DCERPC_ASCII_STRING != 0) e.name,
        d.payload_sz, p1, d.realloc_ok⟩ e.comment a2
      (by rw [← f4]; exact test_flag_congr _ _ rfl _)
      (by rw [← f8]; exact test_flag_congr _ _ rfl _)
      (by
        show (d.offset + vstring_wire_size (fl &&& CIFSD_DCERPC_ASCII_STRING != 0) e.name) % 4 = 0
        omega)
      (by
        show d.offset + vstring_wire_size (fl &&& CIFSD_DCERPC_ASCII_STRING != 0) e.name + 14
          < d.payload_sz
        omega)
      (by show d.payload_sz < 2 ^ 63; omega) (by omega)
    have fa2 : test_flag (⟨d.flags,
        d.offset + vstring_wire_size (fl &&& CIFSD_DCERPC_ASCII_STRING != 0) e.name,
        d.payload_sz, p1, d.realloc_ok⟩ : cifsd_dcerpc) CIFSD_DCERPC_ASCII_STRING
        = (fl &&& CIFSD_DCERPC_ASCII_STRING != 0) := by
      rw [← fa]; exact test_flag_congr _ _ rfl _
    rw [e2, fa2]
    have hst : Int.lor 0 0 = 0 := by decide
    exact ⟨hst, ⟨hd1, hd2, by
      show (d.offset + vstring_wire_size (fl &&& CIFSD_DCERPC_ASCII_STRING != 0) e.name
        + vstring_wire_size (fl &&& CIFSD_DCERPC_ASCII_STRING != 0) e.comment) % 4 = 0
      omega⟩, by
      show d.offset + vstring_wire_size (fl &&& CIFSD_DCERPC_ASCII_STRING != 0) e.name
        + vstring_wire_size (fl &&& CIFSD_DCERPC_ASCII_STRING != 0) e.comment
        = d.offset + (vstring_wire_size (fl &&& CIFSD_DCERPC_ASCII_STRING != 0) e.name
          + vstring_wire_size (fl &&& CIFSD_DCERPC_ASCII_STRING != 0) e.comment)
      omega⟩

theorem term_le_sum {α : Type} (g : α → Nat) (l : List α) (e : α) (he : e ∈ l) :
    g e ≤ (l.map g).sum := by
  induction l with
  | nil => simp at he
  | cons a t ih =>
    simp only [List.map_cons, List.sum_cons]
    rcases List.mem_cons.mp he with rfl | h
    · omega
    · have := ih h
      omega

theorem sum_take_le {α : Type} (g : α → Nat) (l : List α) (k : Nat) :
    ((l.take k).map g).sum ≤ (l.map g).sum := by
  induction l generalizing k with
  | nil => simp
  | cons a t ih =>
    cases k with
    | zero => simp
    | succ k =>
      simp only [List.take_succ_cons, List.map_cons, List.sum_cons]
      have := ih k
      omega

theorem share_size_eq (level : Int) (hlevel : level = 0 ∨ level = 1) (d : cifsd_dcerpc)
    (e : cifsd_share) (h : 2 * e.name.length + 2 * e.comment.length + 36 < 2 ^ 31)
    (size : cifsd_dcerpc → cifsd_share → Int)
    (hsize : (share_callbacks g_convert_7bit level).entry_size = some size) :
    size d e = ((share_estimate level e : Nat) : Int) := by
  rcases hlevel with rfl | rfl
  · simp only [share_callbacks, if_true, Option.some.injEq] at hsize
    subst hsize
    simp only [__share_entry_size_ctr0, share_estimate, if_true, size_add, size_mul, SIZE_MOD]
    have h1 : (e.name.length * 2) % 2 ^ 64 = e.name.length * 2 := Nat.mod_eq_of_lt (by omega)
    rw [h1]
    have h2 : (e.name.length * 2 + 4 * 4) % 2 ^ 64 = 2 * e.name.length + 16 :=
      by rw [Nat.mod_eq_of_lt (by omega)]; omega
    rw [h2]
    apply to_signed_32_small
    · omega
    · have : 2 * e.name.length + 16 < 2 ^ 31 := by omega
      exact_mod_cast this
  · have h10 : ¬ ((1 : Int) = 0) := by decide
    simp only [share_callbacks, h10, if_false, Option.some.injEq] at hsize
    subst hsize
    simp only [__share_entry_size_ctr1, share_estimate, h10, if_false, size_add, size_mul,
      SIZE_MOD]
    have h1 : (e.name.length * 2) % 2 ^ 64 = e.name.length * 2 := Nat.mod_eq_of_lt (by omega)
    have h1b : (e.comment.length * 2) % 2 ^ 64 = e.comment.length * 2 :=
      Nat.mod_eq_of_lt (by omega)
    rw [h1, h1b]
    have h2 : (e.name.length * 2 + e.comment.length * 2) % 2 ^ 64
        = 2 * e.name.length + 2 * e.comment.length :=
      by rw [Nat.mod_eq_of_lt (by omega)]; omega
    rw [h2]
    have h3 : to_signed 32 (((2 * e.name.length + 2 * e.comment.length : Nat)) : Int)
        = ((2 * e.name.length + 2 * e.comment.length : Nat) : Int) := by
      apply to_signed_32_small
      · omega
      · have : 2 * e.name.length + 2 * e.comment.length < 2 ^ 31 := by omega
        exact_mod_cast this
    rw [h3]
    have h4 : ((2 * e.name.length + 2 * e.comment.length : Nat) : Int) + 9 * 4
        = ((2 * e.name.length + 2 * e.comment.length + 36 : Nat) : Int) := by
      push_cast; ring
    rw [h4]
    apply to_signed_32_small
    · omega
    · exact_mod_cast h

theorem wire_vs_estimate (level : Int) (hlevel : level = 0 ∨ level = 1) (ascii : Bool)
    (e : cifsd_share) :
    9 * (rep_wire_size level + data_wire_size level ascii e) ≤ 10 * share_estimate level e
    ∧ (rep_wire_size level + data_wire_size level ascii e) % 4 = 0
    ∧ share_estimate level e % 2 = 0 := by
  rcases hlevel with rfl | rfl
  · simp only [rep_wire_size, data_wire_size, share_estimate, if_true, vstring_wire_size, pad4]
    cases ascii <;> simp <;> omega
  · have h10 : ¬ ((1 : Int) = 0) := by decide
    simp only [rep_wire_size, data_wire_size, share_estimate, h10, if_false, vstring_wire_size,
      pad4]
    cases ascii <;> simp <;> omega

theorem wire_vs_estimate_sum (level : Int) (hlevel : level = 0 ∨ level = 1) (ascii : Bool)
    (l : List cifsd_share) :
    9 * ((l.map (fun _ => rep_wire_size level)).sum + (l.map (data_wire_size level ascii)).sum)
        ≤ 10 * (l.map (share_estimate level)).sum
    ∧ ((l.map (fun _ => rep_wire_size level)).sum + (l.map (data_wire_size level ascii)).sum) % 4
        = 0
    ∧ (l.map (share_estimate level)).sum % 2 = 0 := by
  induction l with
  | nil => simp
  | cons a t ih =>
    have h := wire_vs_estimate level hlevel ascii a
    simp only [List.map_cons, List.sum_cons]
    omega

theorem response_size_eq (level : Int) (ascii : Bool) (l : List cifsd_share) :
    response_size level ascii l
      = 36 + ((l.map (fun _ => rep_wire_size level)).sum
          + (l.map (data_wire_size level ascii)).sum) := by
  unfold response_size
  congr 1
  induction l with
  | nil => simp
  | cons a t ih =>
    simp only [List.map_cons, List.sum_cons, ih]
    have : share_wire_size level ascii a = rep_wire_size level + data_wire_size level ascii a := by
      unfold share_wire_size rep_wire_size data_wire_size
      split <;> omega
    omega

theorem sum_map_cast (g : cifsd_share → Nat) (l : List cifsd_share) :
    (l.map (fun e => ((g e : Nat) : Int))).sum = (((l.map g).sum : Nat) : Int) := by
  induction l with
  | nil => simp
  | cons a t ih => simp only [List.map_cons, List.sum_cons, ih]; push_cast; rfl

theorem array_fits (level : Int) (hlevel : level = 0 ∨ level = 1) (fl cap : Nat)
    (hfl4 : (fl &&& CIFSD_DCERPC_ALIGN4 != 0) = true)
    (hfl8 : (fl &&& CIFSD_DCERPC_ALIGN8 != 0) = false) (hcap : cap < 2 ^ 63)
    (d : cifsd_dcerpc) (hd : ctx_like fl cap d)
    (pipe : cifsd_rpc_pipe cifsd_share) (released : List cifsd_share) (k : Nat) (hm : Int)
    (hb : array_budget d (share_callbacks g_convert_7bit level) pipe.topipe_data
      = some ((k : Int), hm))
    (hk : 1 ≤ k) (hkN : k ≤ pipe.entries.length)
    (hascii : ∀ s ∈ pipe.entries, ascii_share s)
    (hlens : ∀ s ∈ pipe.entries, s.name.length < 2 ^ 31 ∧ s.comment.length < 2 ^ 31)
    (hroom : d.offset + 12 + ((pipe.entries.take k).map (fun _ => rep_wire_size level)).sum
      + ((pipe.entries.take k).map
          (data_wire_size level (fl &&& CIFSD_DCERPC_ASCII_STRING != 0))).sum + 12 < cap)
    (hproc : pipe.entry_processed = none
      ∨ pipe.entry_processed = some __share_entry_processed) :
    ∃ ra : array_result cifsd_share,
      ndr_write_array_of_structs (share_callbacks g_convert_7bit level) d pipe released = some ra
      ∧ ra.status = hm
      ∧ ctx_like fl cap ra.dce
      ∧ ra.dce.offset
          = d.offset + 12 + ((pipe.entries.take k).map (fun _ => rep_wire_size level)).sum
            + ((pipe.entries.take k).map
                (data_wire_size level (fl &&& CIFSD_DCERPC_ASCII_STRING != 0))).sum := by
  have f4 : test_flag d CIFSD_DCERPC_ALIGN4 = true := by rw [ctx_like_flag fl cap d hd]; exact hfl4
  have f8 : test_flag d CIFSD_DCERPC_ALIGN8 = false := by rw [ctx_like_flag fl cap d hd]; exact hfl8
  obtain ⟨hd1, hd2, hd3⟩ := hd
  have hk0 : ¬ ((k : Int) = 0) := by omega
  obtain ⟨p1, e1⟩ := ndr_write_int32_fits d (k : Int) f4 f8 hd3 (by omega) (by omega)
  obtain ⟨p2, e2⟩ := ndr_write_int32_fits
    ⟨d.flags, d.offset + 4, d.payload_sz, p1, d.realloc_ok⟩ 1
    (by rw [← f4]; exact test_flag_congr _ _ rfl _)
    (by rw [← f8]; exact test_flag_congr _ _ rfl _)
    (by show (d.offset + 4) % 4 = 0; omega)
    (by show d.offset + 4 + 4 < d.payload_sz; omega) (by show d.payload_sz < 2 ^ 63; omega)
  obtain ⟨p3, e3⟩ := ndr_write_int32_fits
    ⟨d.flags, d.offset + 4 + 4, d.payload_sz, p2, d.realloc_ok⟩ (k : Int)
    (by rw [← f4]; exact test_flag_congr _ _ rfl _)
    (by rw [← f8]; exact test_flag_congr _ _ rfl _)
    (by show (d.offset + 4 + 4) % 4 = 0; omega)
    (by show d.offset + 4 + 4 + 4 < d.payload_sz; omega) (by show d.payload_sz < 2 ^ 63; omega)
  have hd3c : ctx_like fl cap ⟨d.flags, d.offset + 4 + 4 + 4, d.payload_sz, p3, d.realloc_ok⟩ :=
    ⟨hd1, hd2, by show (d.offset + 4 + 4 + 4) % 4 = 0; omega⟩
  obtain ⟨d4, l1, l2, l3⟩ := marshal_loop_fits
    (share_callbacks g_convert_7bit level).entry_rep (fun _ => rep_wire_size level) fl cap
    pipe.entries
    (fun dd e _ hdd hr => rep_fits level hlevel fl cap hfl4 hfl8 hcap dd e hdd hr)
    k 0 ⟨d.flags, d.offset + 4 + 4 + 4, d.payload_sz, p3, d.realloc_ok⟩ (by omega) hd3c
    (by
      show d.offset + 4 + 4 + 4
        + (((pipe.entries.drop 0).take k).map (fun _ => rep_wire_size level)).sum + 12 < cap
      simp only [List.drop_zero]
      omega)
  simp only [List.drop_zero] at l3
  have l3b : d4.offset = d.offset + 4 + 4 + 4
      + ((pipe.entries.take k).map (fun _ => rep_wire_size level)).sum := l3
  obtain ⟨d5, m1, m2, m3⟩ := marshal_loop_fits
    (share_callbacks g_convert_7bit level).entry_data
    (data_wire_size level (fl &&& CIFSD_DCERPC_ASCII_STRING != 0)) fl cap pipe.entries
    (fun dd e he hdd hr =>
      data_fits level hlevel fl cap hfl4 hfl8 hcap dd e (hascii e he) (hlens e he) hdd hr)
    k 0 d4 (by omega) l2
    (by
      simp only [List.drop_zero]
      rw [l3b]
      omega)
  simp only [List.drop_zero] at m3
  unfold ndr_write_array_of_structs
  simp only [hb, hk0, if_false, Int.toNat_ofNat, e1, e2, e3, l1, m1, ne_eq, not_true_eq_false]
  rcases hproc with hp | hp
  · simp only [hp]
    exact ⟨_, rfl, rfl, m2, by rw [m3, l3b]⟩
  · simp only [hp, processed_loop_share k pipe.topipe_data released hkN]
    exact ⟨_, rfl, rfl, m2, by rw [m3, l3b]⟩

theorem trailer_fits (fl cap : Nat)
    (hfl4 : (fl &&& CIFSD_DCERPC_ALIGN4 != 0) = true)
    (hfl8 : (fl &&& CIFSD_DCERPC_ALIGN8 != 0) = false) (hcap : cap < 2 ^ 63)
    (d : cifsd_dcerpc) (hd : ctx_like fl cap d) (pipe : cifsd_rpc_pipe cifsd_share) (ret : Int)
    (hroom : d.offset + 12 < cap) :
    (share_enum_trailer d pipe ret).offset = d.offset + 12
    ∧ (share_enum_trailer d pipe ret).payload_sz = cap := by
  have f4 : test_flag d CIFSD_DCERPC_ALIGN4 = true := by rw [ctx_like_flag fl cap d hd]; exact hfl4
  have f8 : test_flag d CIFSD_DCERPC_ALIGN8 = false := by rw [ctx_like_flag fl cap d hd]; exact hfl8
  obtain ⟨hd1, hd2, hd3⟩ := hd
  obtain ⟨p1, e1⟩ := ndr_write_int32_fits d pipe.num_entries f4 f8 hd3 (by omega) (by omega)
  have g4 : test_flag (⟨d.flags, d.offset + 4, d.payload_sz, p1, d.realloc_ok⟩ : cifsd_dcerpc)
      CIFSD_DCERPC_ALIGN4 = true := by rw [← f4]; exact test_flag_congr _ _ rfl _
  have g8 : test_flag (⟨d.flags, d.offset + 4, d.payload_sz, p1, d.realloc_ok⟩ : cifsd_dcerpc)
      CIFSD_DCERPC_ALIGN8 = false := by rw [← f8]; exact test_flag_congr _ _ rfl _
  have hmid : ∃ p2, (if ret = CIFSD_DCERPC_ERROR_MORE_DATA
        then (ndr_write_int32 ⟨d.flags, d.offset + 4, d.payload_sz, p1, d.realloc_ok⟩ 1).2
        else (ndr_write_int32 ⟨d.flags, d.offset + 4, d.payload_sz, p1, d.realloc_ok⟩ 0).2)
      = ⟨d.flags, d.offset + 4 + 4, d.payload_sz, p2, d.realloc_ok⟩ := by
    split
    · obtain ⟨p2, e2⟩ := ndr_write_int32_fits
        ⟨d.flags, d.offset + 4, d.payload_sz, p1, d.realloc_ok⟩ 1 g4 g8
        (by show (d.offset + 4) % 4 = 0; omega)
        (by show d.offset + 4 + 4 < d.payload_sz; omega) (by show d.payload_sz < 2 ^ 63; omega)
      exact ⟨p2, by rw [e2]⟩
    · obtain ⟨p2, e2⟩ := ndr_write_int32_fits
        ⟨d.flags, d.offset + 4, d.payload_sz, p1, d.realloc_ok⟩ 0 g4 g8
        (by show (d.offset + 4) % 4 = 0; omega)
        (by show d.offset + 4 + 4 < d.payload_sz; omega) (by show d.payload_sz < 2 ^ 63; omega)
      exact ⟨p2, by rw [e2]⟩
  obtain ⟨p2, e2⟩ := hmid
  obtain ⟨p3, e3⟩ := ndr_write_int32_fits
    ⟨d.flags, d.offset + 4 + 4, d.payload_sz, p2, d.realloc_ok⟩ ret
    (by rw [← f4]; exact test_flag_congr _ _ rfl _)
    (by rw [← f8]; exact test_flag_congr _ _ rfl _)
    (by show (d.offset + 4 + 4) % 4 = 0; omega)
    (by show d.offset + 4 + 4 + 4 < d.payload_sz; omega) (by show d.payload_sz < 2 ^ 63; omega)
  unfold share_enum_trailer
  simp only [e1, e2, e3]
  exact ⟨trivial, hd2⟩

theorem prologue_fits (fl cap : Nat)
    (hfl4 : (fl &&& CIFSD_DCERPC_ALIGN4 != 0) = true)
    (hfl8 : (fl &&& CIFSD_DCERPC_ALIGN8 != 0) = false) (hcap : cap < 2 ^ 63)
    (d : cifsd_dcerpc) (hd : ctx_like fl cap d) (level count : Int)
    (hroom : d.offset + 12 < cap) :
    ctx_like fl cap (ndr_write_int32 (ndr_write_union d level).2 count).2
    ∧ (ndr_write_int32 (ndr_write_union d level).2 count).2.offset = d.offset + 12 := by
  have f4 : test_flag d CIFSD_DCERPC_ALIGN4 = true := by rw [ctx_like_flag fl cap d hd]; exact hfl4
  have f8 : test_flag d CIFSD_DCERPC_ALIGN8 = false := by rw [ctx_like_flag fl cap d hd]; exact hfl8
  obtain ⟨hd1, hd2, hd3⟩ := hd
  obtain ⟨p1, e1⟩ := ndr_write_int32_fits d level f4 f8 hd3 (by omega) (by omega)
  obtain ⟨p2, e2⟩ := ndr_write_int32_fits
    ⟨d.flags, d.offset + 4, d.payload_sz, p1, d.realloc_ok⟩ level
    (by rw [← f4]; exact test_flag_congr _ _ rfl _)
    (by rw [← f8]; exact test_flag_congr _ _ rfl _)
    (by show (d.offset + 4) % 4 = 0; omega)
    (by show d.offset + 4 + 4 < d.payload_sz; omega) (by show d.payload_sz < 2 ^ 63; omega)
  obtain ⟨p3, e3⟩ := ndr_write_int32_fits
    ⟨d.flags, d.offset + 4 + 4, d.payload_sz, p2, d.realloc_ok⟩ count
    (by rw [← f4]; exact test_flag_congr _ _ rfl _)
    (by rw [← f8]; exact test_flag_congr _ _ rfl _)
    (by show (d.offset + 4 + 4) % 4 = 0; omega)
    (by show d.offset + 4 + 4 + 4 < d.payload_sz; omega) (by show d.payload_sz < 2 ^ 63; omega)
  unfold ndr_write_union
  simp only [e1, e2, e3, ne_eq, not_true_eq_false, if_false]
  exact ⟨⟨hd1, hd2, by show (d.offset + 4 + 4 + 4) % 4 = 0; omega⟩, trivial⟩

theorem to_size_t_nat (c : Nat) (h : c < 2 ^ 31) : to_size_t (c : Int) = c := by
  have h1 := to_size_t_small (c : Int) (by omega) (by exact_mod_cast h)
  exact_mod_cast h1

theorem sum_estimate_le (level : Int) (l : List cifsd_share) :
    (l.map (share_estimate level)).sum
      ≤ (l.map (fun s => 2 * s.name.length + 2 * s.comment.length + 36)).sum := by
  induction l with
  | nil => simp
  | cons a t ih =>
    simp only [List.map_cons, List.sum_cons]
    have : share_estimate level a ≤ 2 * a.name.length + 2 * a.comment.length + 36 := by
      unfold share_estimate
      split <;> omega
    omega

theorem margin_arith (c s w : Nat) (hc : 129 ≤ c) (hs : s < 2 * c / 3)
    (h9 : 9 * w ≤ 10 * s) (h4 : w % 4 = 0) (h2 : s % 2 = 0) : 36 + w < c := by
  omega

theorem range_four : List.range 4 = [0, 1, 2, 3] := rfl

theorem budget_loop_calls_fst {α : Type} (dce : cifsd_dcerpc) (size : cifsd_dcerpc → α → Int)
    (pipe : pipe_data α) (n : Nat) :
    ∀ (i : Nat) (cs : Int),
      (budget_loop_calls dce size pipe n i cs).map Prod.fst = budget_loop dce size pipe n i cs := by
  induction n with
  | zero => intro i cs; rfl
  | succ n ih =>
    intro i cs
    simp only [budget_loop_calls, budget_loop]
    cases g_array_index pipe.entries i with
    | none => rfl
    | some entry =>
      simp only []
      split
      · rw [← ih (i + 1)]
        simp [Option.map_map, Function.comp_def]
      · rfl

theorem array_budget_calls_fst {α : Type} (dce : cifsd_dcerpc) (cb : dcerpc_callbacks α)
    (pipe : pipe_data α) :
    (array_budget_calls dce cb pipe).map Prod.fst = array_budget dce cb pipe := by
  unfold array_budget_calls array_budget
  split
  · exact budget_loop_calls_fst _ _ _ _ _ _
  · rfl

theorem marshal_loop_calls_fst {α : Type} (f : cifsd_dcerpc → α → Int × cifsd_dcerpc)
    (tag : Nat → callback_call) (entries : List α) (n : Nat) :
    ∀ (i : Nat) (d : cifsd_dcerpc),
      (marshal_loop_calls f tag entries n i d).map Prod.fst = marshal_loop f entries n i d := by
  induction n with
  | zero => intro i d; rfl
  | succ n ih =>
    intro i d
    simp only [marshal_loop_calls, marshal_loop]
    cases g_array_index entries i with
    | none => rfl
    | some entry =>
      simp only []
      split
      · rfl
      · rw [← ih (i + 1)]
        simp [Option.map_map, Function.comp_def]

theorem processed_loop_calls_fst {α : Type} (f : entry_processed_t α) (n : Nat) :
    ∀ (p : pipe_data α) (rel : List α),
      (processed_loop_calls f n p rel).map Prod.fst = processed_loop f n p rel := by
  induction n with
  | zero => intro p rel; rfl
  | succ n ih =>
    intro p rel
    simp only [processed_loop_calls, processed_loop]
    cases f p rel 0 with
    | none => rfl
    | some r =>
      simp only []
      rw [← ih r.1 r.2]
      simp [Option.map_map, Function.comp_def]

theorem budget_loop_calls_only_size {α : Type} (dce : cifsd_dcerpc)
    (size : cifsd_dcerpc → α → Int) (pipe : pipe_data α) (n : Nat) :
    ∀ (i : Nat) (cs : Int) (r : (Int × Int) × List callback_call),
      budget_loop_calls dce size pipe n i cs = some r →
      ∀ c ∈ r.2, ∃ t, c = callback_call.entry_size t := by
  induction n with
  | zero =>
    intro i cs r h c hc
    simp only [budget_loop_calls, Option.some.injEq] at h
    subst h
    simp at hc
  | succ n ih =>
    intro i cs r h c hc
    simp only [budget_loop_calls] at h
    cases hg : g_array_index pipe.entries i with
    | none => simp [hg] at h
    | some entry =>
      simp only [hg] at h
      split at h
      · cases hr : budget_loop_calls dce size pipe n (i + 1)
          (to_signed 32 (cs + size dce entry)) with
        | none => simp [hr] at h
        | some r2 =>
          simp only [hr, Option.map_some', Option.some.injEq] at h
          subst h
          simp only [List.mem_cons] at hc
          rcases hc with hc | hc
          · exact ⟨i, hc⟩
          · exact ih _ _ r2 hr c hc
      · simp only [Option.some.injEq] at h
        subst h
        simp only [List.mem_singleton] at hc
        exact ⟨i, hc⟩

theorem array_budget_calls_only_size {α : Type} (dce : cifsd_dcerpc) (cb : dcerpc_callbacks α)
    (pipe : pipe_data α) (r : (Int × Int) × List callback_call)
    (h : array_budget_calls dce cb pipe = some r) :
    ∀ c ∈ r.2, ∃ t, c = callback_call.entry_size t := by
  unfold array_budget_calls at h
  split at h
  · exact budget_loop_calls_only_size _ _ _ _ _ _ r h
  · simp only [Option.some.injEq] at h
    subst h
    intro c hc
    simp at hc

theorem marshal_loop_calls_ok {α : Type} (f : cifsd_dcerpc → α → Int × cifsd_dcerpc)
    (tag : Nat → callback_call) (entries : List α) (n : Nat) :
    ∀ (i : Nat) (d : cifsd_dcerpc), i + n ≤ entries.length →
      all_return_zero f ((entries.drop i).take n) d = true →
      marshal_loop_calls f tag entries n i d
        = some ((0, apply_all f ((entries.drop i).take n) d), (List.range' i n).map tag) := by
  induction n with
  | zero => intro i d _ _; simp [marshal_loop_calls, apply_all]
  | succ n ih =>
    intro i d h hz
    have hi : i < entries.length := by omega
    rw [List.drop_eq_getElem_cons hi] at hz ⊢
    simp only [List.take_succ_cons, all_return_zero, Bool.and_eq_true, decide_eq_true_eq] at hz
    simp only [List.take_succ_cons, apply_all, marshal_loop_calls,
      g_array_index_of_lt entries i hi, List.get_eq_getElem, hz.1, ne_eq, not_true_eq_false,
      if_false]
    rw [ih (i + 1) _ (by omega) hz.2]
    simp [List.range'_succ]

theorem marshal_loop_calls_fail {α : Type} (f : cifsd_dcerpc → α → Int × cifsd_dcerpc)
    (tag : Nat → callback_call) (entries : List α) (n : Nat) :
    ∀ (i : Nat) (d : cifsd_dcerpc), i + n ≤ entries.length →
      all_return_zero f ((entries.drop i).take n) d = false →
      ∃ (j : Nat) (e : α), j < n ∧ g_array_index entries (i + j) = some e
        ∧ all_return_zero f ((entries.drop i).take j) d = true
        ∧ (f (apply_all f ((entries.drop i).take j) d) e).1 ≠ 0
        ∧ marshal_loop_calls f tag entries n i d
          = some ((CIFSD_DCERPC_ERROR_INVALID_LEVEL,
                   (f (apply_all f ((entries.drop i).take j) d) e).2),
                  (List.range' i (j + 1)).map tag) := by
  induction n with
  | zero => intro i d _ hz; simp [all_return_zero] at hz
  | succ n ih =>
    intro i d h hz
    have hi : i < entries.length := by omega
    by_cases h0 : (f d entries[i]).1 = 0
    · rw [List.drop_eq_getElem_cons hi] at hz
      simp only [List.take_succ_cons, all_return_zero, h0, decide_True, Bool.true_and] at hz
      obtain ⟨j, e, hj, hg, ha, hf, hm⟩ := ih (i + 1) (f d entries[i]).2 (by omega) hz
      refine ⟨j + 1, e, by omega, ?_, ?_, ?_, ?_⟩
      · rw [← hg]; congr 1; omega
      · rw [List.drop_eq_getElem_cons hi]
        simp only [List.take_succ_cons, all_return_zero, h0, decide_True, Bool.true_and]
        exact ha
      · rw [List.drop_eq_getElem_cons hi]
        simp only [List.take_succ_cons, apply_all]
        exact hf
      · rw [List.drop_eq_getElem_cons hi]
        simp only [List.take_succ_cons, apply_all, marshal_loop_calls,
          g_array_index_of_lt entries i hi, List.get_eq_getElem, h0, ne_eq, not_true_eq_false,
          if_false, hm]
        simp [List.range'_succ]
    · refine ⟨0, entries[i], by omega, ?_, ?_, ?_, ?_⟩
      · simpa using g_array_index_of_lt entries i hi
      · simp [all_return_zero]
      · simpa [apply_all] using h0
      · simp only [List.take_zero, apply_all, marshal_loop_calls,
          g_array_index_of_lt entries i hi, List.get_eq_getElem, ne_eq, h0, not_false_eq_true,
          if_true]
        simp [List.range'_succ]

theorem ndr_write_array_of_structs_calls_fst {α : Type} (cb : dcerpc_callbacks α)
    (dce : cifsd_dcerpc) (pipe : cifsd_rpc_pipe α) (released : List α) :
    (ndr_write_array_of_structs_calls cb dce pipe released).map Prod.fst
      = ndr_write_array_of_structs cb dce pipe released := by
  unfold ndr_write_array_of_structs_calls ndr_write_array_of_structs
  rw [← array_budget_calls_fst]
  cases array_budget_calls dce cb pipe.topipe_data with
  | none => rfl
  | some b =>
    obtain ⟨⟨k, hm⟩, c1⟩ := b
    simp only [Option.map_some']
    by_cases hk : k = 0
    · simp [hk]
    · simp only [hk, if_false]
      rw [← marshal_loop_calls_fst cb.entry_rep callback_call.entry_rep pipe.entries k.toNat 0]
      cases marshal_loop_calls cb.entry_rep callback_call.entry_rep pipe.entries k.toNat 0
          (ndr_write_int32 (ndr_write_int32 (ndr_write_int32 dce k).2 1).2 k).2 with
      | none => rfl
      | some b4 =>
        obtain ⟨⟨r4, d4⟩, c4⟩ := b4
        simp only [Option.map_some']
        by_cases h4 : r4 = 0
        · simp only [h4, ne_eq, not_true_eq_false, if_false]
          rw [← marshal_loop_calls_fst cb.entry_data callback_call.entry_data pipe.entries
            k.toNat 0]
          cases marshal_loop_calls cb.entry_data callback_call.entry_data pipe.entries
              k.toNat 0 d4 with
          | none => rfl
          | some b5 =>
            obtain ⟨⟨r5, d5⟩, c5⟩ := b5
            simp only [Option.map_some']
            by_cases h5 : r5 = 0
            · simp only [h5, ne_eq, not_true_eq_false, if_false]
              cases pipe.entry_processed with
              | none => rfl
              | some f =>
                simp only []
                rw [← processed_loop_calls_fst f k.toNat]
                cases processed_loop_calls f k.toNat pipe.topipe_data released with
                | none => rfl
                | some b6 =>
                  obtain ⟨⟨p, rel⟩, c6⟩ := b6
                  rfl
            · simp [h5]
        · simp [h4]

theorem size_add_size_add (a b c : Nat) : size_add (size_add a b) c = size_add a (b + c) := by
  unfold size_add SIZE_MOD
  omega

theorem parse_hdr_drep (dce : cifsd_dcerpc) :
    (ndr_read_bytes (ndr_read_bytes (ndr_read_bytes (ndr_read_bytes (ndr_read_bytes
        dce 1).2 1).2 1).2 1).2 4).1
      = [dce.payload (size_add dce.offset 4) % 256,
         dce.payload (size_add dce.offset 4 + 1) % 256,
         dce.payload (size_add dce.offset 4 + 2) % 256,
         dce.payload (size_add dce.offset 4 + 3) % 256] := by
  simp [ndr_read_bytes, size_add_size_add, range_four]

theorem parse_hdr_packed_drep (dce : cifsd_dcerpc) (hdr : dcerpc_header) :
    (rpc_srvsvc_parse_dcerpc_hdr dce hdr).2.2.packed_drep
      = (ndr_read_bytes (ndr_read_bytes (ndr_read_bytes (ndr_read_bytes (ndr_read_bytes
          dce 1).2 1).2 1).2 1).2 4).1 := by
  unfold rpc_srvsvc_parse_dcerpc_hdr
  simp only []
  split <;> rfl

theorem parse_hdr_status (dce : cifsd_dcerpc) (hdr : dcerpc_header) :
    (rpc_srvsvc_parse_dcerpc_hdr dce hdr).1
      = if dce.payload (size_add dce.offset 4) % 256 = DCERPC_SERIALIZATION_TYPE2
        then -EINVAL else 0 := by
  unfold rpc_srvsvc_parse_dcerpc_hdr
  simp only [parse_hdr_drep, List.getD_cons_zero]
  split <;> rfl

theorem parse_hdr_flags_of_drep (dce : cifsd_dcerpc) (hdr : dcerpc_header) :
    ((rpc_srvsvc_parse_dcerpc_hdr dce hdr).1 = 0 →
      test_flag (rpc_srvsvc_parse_dcerpc_hdr dce hdr).2.1 CIFSD_DCERPC_ALIGN4 = true
      ∧ (test_flag (rpc_srvsvc_parse_dcerpc_hdr dce hdr).2.1 CIFSD_DCERPC_LITTLE_ENDIAN = true
          ↔ (rpc_srvsvc_parse_dcerpc_hdr dce hdr).2.2.packed_drep.getD 1 0
              = DCERPC_SERIALIZATION_LITTLE_ENDIAN)
      ∧ test_flag (rpc_srvsvc_parse_dcerpc_hdr dce hdr).2.1 CIFSD_DCERPC_ALIGN8
          = test_flag dce CIFSD_DCERPC_ALIGN8
      ∧ test_flag (rpc_srvsvc_parse_dcerpc_hdr dce hdr).2.1 CIFSD_DCERPC_FIXED_PAYLOAD_SZ
          = test_flag dce CIFSD_DCERPC_FIXED_PAYLOAD_SZ
      ∧ test_flag (rpc_srvsvc_parse_dcerpc_hdr dce hdr).2.1 CIFSD_DCERPC_EXTERNAL_PAYLOAD
          = test_flag dce CIFSD_DCERPC_EXTERNAL_PAYLOAD
      ∧ test_flag (rpc_srvsvc_parse_dcerpc_hdr dce hdr).2.1 CIFSD_DCERPC_ASCII_STRING
          = test_flag dce CIFSD_DCERPC_ASCII_STRING)
    ∧ ((rpc_srvsvc_parse_dcerpc_hdr dce hdr).1 ≠ 0 →
        (rpc_srvsvc_parse_dcerpc_hdr dce hdr).2.1.flags = dce.flags) := by
  unfold rpc_srvsvc_parse_dcerpc_hdr
  simp only []
  split
  · refine ⟨fun h => ?_, fun _ => rfl⟩
    simp [EINVAL] at h
  · rename_i hty
    refine ⟨fun _ => ?_, fun h => absurd rfl h⟩
    simp only [ndr_read_int16, ndr_read_int32, test_flag, ndr_read_int_flags, ndr_read_bytes_flags]
    split
    · rename_i hle
      simp only [clear_flag_bits, UINT_MAX, CIFSD_DCERPC_ALIGN4, CIFSD_DCERPC_LITTLE_ENDIAN,
        CIFSD_DCERPC_ALIGN8, CIFSD_DCERPC_FIXED_PAYLOAD_SZ, CIFSD_DCERPC_EXTERNAL_PAYLOAD,
        CIFSD_DCERPC_ASCII_STRING, Nat.and_assoc]
      have e1 : (4294967295 ^^^ 1) &&& 2 = 2 := by decide
      have e2 : (4294967295 ^^^ 1) &&& 1 = 0 := by decide
      have e3 : (4294967295 ^^^ 1) &&& 4 = 4 := by decide
      have e4 : (4294967295 ^^^ 1) &&& 16 = 16 := by decide
      have e5 : (4294967295 ^^^ 1) &&& 32 = 32 := by decide
      have e6 : (4294967295 ^^^ 1) &&& 8 = 8 := by decide
      rw [e1, e2, e3, e4, e5, e6]
      simp only [Nat.and_distrib_right, Nat.and_zero]
      have c1 : (1 &&& 2) = 0 := by decide
      have c2 : (2 &&& 2) = 2 := by decide
      have c3 : (2 &&& 4) = 0 := by decide
      have c4 : (1 &&& 4) = 0 := by decide
      have c5 : (2 &&& 16) = 0 := by decide
      have c6 : (1 &&& 16) = 0 := by decide
      have c7 : (2 &&& 32) = 0 := by decide
      have c8 : (1 &&& 32) = 0 := by decide
      have c9 : (2 &&& 8) = 0 := by decide
      have c10 : (1 &&& 8) = 0 := by decide
      rw [c1, c2, c3, c4, c5, c6, c7, c8, c9, c10]
      simp only [Nat.or_zero]
      refine ⟨?_, ?_, trivial, trivial, trivial, trivial⟩
      · simpa using or_bit_ne_zero (dce.flags &&& 2) 2 1 (by decide)
      · constructor
        · intro h; simp at h
        · intro h; exact absurd h hle
    · rename_i hle
      have hle2 := not_not.mp hle
      simp only [CIFSD_DCERPC_ALIGN4, CIFSD_DCERPC_LITTLE_ENDIAN,
        CIFSD_DCERPC_ALIGN8, CIFSD_DCERPC_FIXED_PAYLOAD_SZ, CIFSD_DCERPC_EXTERNAL_PAYLOAD,
        CIFSD_DCERPC_ASCII_STRING, Nat.and_distrib_right]
      have c0 : (1 &&& 1) = 1 := by decide
      have c1 : (1 &&& 2) = 0 := by decide
      have c2 : (2 &&& 2) = 2 := by decide
      have c3 : (2 &&& 4) = 0 := by decide
      have c4 : (1 &&& 4) = 0 := by decide
      have c5 : (2 &&& 16) = 0 := by decide
      have c6 : (1 &&& 16) = 0 := by decide
      have c7 : (2 &&& 32) = 0 := by decide
      have c8 : (1 &&& 32) = 0 := by decide
      have c9 : (2 &&& 8) = 0 := by decide
      have c10 : (1 &&& 8) = 0 := by decide
      rw [c0, c1, c2, c3, c4, c5, c6, c7, c8, c9, c10]
      simp only [Nat.or_zero]
      refine ⟨?_, ?_, trivial, trivial, trivial, trivial⟩
      · simpa using or_bit_ne_zero (dce.flags &&& 2) 2 1 (by decide)
      · constructor
        · intro _; exact hle2
        · intro _
          simpa using or_bit_ne_zero (dce.flags &&& 1 ||| 2 &&& 1) 1 0 (by decide)

/-- C1, evaluated on the code: the integer round trip fails.  `ndr_write_int16`
of 258 succeeds, and `ndr_read_int16` at the same offset returns 2 under
`LITTLE_ENDIAN` and 256 without it; `ndr_write_int32` of 65536 reads back as 0
(little-endian) and of 1 reads back as 0 (big-endian); `ndr_write_int64` of
2^32 reads back as 0 (little-endian) and of 1 reads back as 0 (big-endian).
The store and the load go through `char *`, one byte each. -/
theorem ndr_int_roundtrip_one_byte :
    (ndr_write_int16 (ctx 1 4096 0) 258).1 = 0
    ∧ (ndr_read_int16 { (ndr_write_int16 (ctx 1 4096 0) 258).2 with offset := 0 }).1 = 2
    ∧ (ndr_write_int16 (ctx 0 4096 0) 258).1 = 0
    ∧ (ndr_read_int16 { (ndr_write_int16 (ctx 0 4096 0) 258).2 with offset := 0 }).1 = 256
    ∧ (ndr_write_int32 (ctx 1 4096 0) 65536).1 = 0
    ∧ (ndr_read_int32 { (ndr_write_int32 (ctx 1 4096 0) 65536).2 with offset := 0 }).1 = 0
    ∧ (ndr_write_int32 (ctx 0 4096 0) 1).1 = 0
    ∧ (ndr_read_int32 { (ndr_write_int32 (ctx 0 4096 0) 1).2 with offset := 0 }).1 = 0
    ∧ (ndr_write_int64 (ctx 1 4096 0) 4294967296).1 = 0
    ∧ (ndr_read_int64 { (ndr_write_int64 (ctx 1 4096 0) 4294967296).2 with offset := 0 }).1 = 0
    ∧ (ndr_write_int64 (ctx 0 4096 0) 1).1 = 0
    ∧ (ndr_read_int64 { (ndr_write_int64 (ctx 0 4096 0) 1).2 with offset := 0 }).1 = 0 := by
  decide

/-- C2, evaluated on the code: the string round trip fails under `ASCII_STRING`
for odd lengths.  With `LITTLE_ENDIAN | ASCII_STRING`, writing "a" succeeds
and reading at the same offset yields the empty string; writing "abc"
succeeds and reading yields "ab".  The writer stores `bytes_written / 2` as
the element count and the reader takes `raw_len * 2` bytes. -/
theorem ndr_vstring_roundtrip_ascii_odd :
    (ndr_write_vstring g_convert_7bit (ctx 9 4096 0) (some [97])).1 = 0
    ∧ (ndr_read_vstring g_convert_7bit
        { (ndr_write_vstring g_convert_7bit (ctx 9 4096 0) (some [97])).2 with offset := 0 }).1
      = some []
    ∧ (ndr_write_vstring g_convert_7bit (ctx 9 4096 0) (some [97, 98, 99])).1 = 0
    ∧ (ndr_read_vstring g_convert_7bit
        { (ndr_write_vstring g_convert_7bit (ctx 9 4096 0) (some [97, 98, 99])).2
            with offset := 0 }).1
      = some [97, 98] := by
  decide

/-- C3 as stated fails: in a fixed context of capacity 27 with the level-0
estimator and the entries "A", "BB", "CCC", the first entry has estimated
size 18, which does not exceed two-thirds of 27, and the first two exceed it;
the claim selects 1 entry and returns MORE_DATA, the code selects 0 entries
and returns the invalid-level status, retiring nothing. -/
theorem array_budget_boundary_counterexample :
    test_flag (ctx 16 27 0) CIFSD_DCERPC_FIXED_PAYLOAD_SZ = true
    ∧ 3 * cumulative_size (__share_entry_size_ctr0 (ctx 16 27 0)) pipe7_ABC.entries 1 ≤ 2 * 27
    ∧ ¬ (3 * cumulative_size (__share_entry_size_ctr0 (ctx 16 27 0)) pipe7_ABC.entries 2 ≤ 2 * 27)
    ∧ array_budget (ctx 16 27 0) callbacks_ctr0 pipe7_ABC.topipe_data
        = some (0, CIFSD_DCERPC_ERROR_MORE_DATA)
    ∧ (ndr_write_array_of_structs callbacks_ctr0 (ctx 16 27 0) pipe7_ABC []).map
        (fun r => (r.status, r.pipe.entries.length)) = some (CIFSD_DCERPC_ERROR_INVALID_LEVEL, 3) := by
  decide

/-- C3 as amended: in a fixed context of capacity C (with 2C below 2^64) with
an `entry_size` estimator, over a pipe whose count equals the length N of its
entry sequence, with non-negative estimated sizes of total below 2^31, let k
be the length of the longest run of entries from the front whose cumulative
estimated size stays strictly below the integer `2 * C / 3` (every non-empty
front part of at most k entries is below it and, when k < N, the first k + 1
entries reach it).  Then `ndr_write_array_of_structs` selects exactly k
entries, with the continuation mark set exactly when k < N, and the call
returns (the consumption callback, if any, staying inside the entry array).
When every `entry_rep` and `entry_data` call of the run on these k entries
returns 0, the status is invalid-level when k = 0, MORE_DATA when
1 <= k < N and 0 when k = N >= 1, and the context is the array header for k
followed by `entry_rep` and then `entry_data` on exactly the first k
entries. -/
theorem array_budget_selection {α : Type} (cb : dcerpc_callbacks α) (dce : cifsd_dcerpc)
    (pipe : cifsd_rpc_pipe α) (released : List α) (size : cifsd_dcerpc → α → Int) (k : Nat)
    (hfixed : test_flag dce CIFSD_DCERPC_FIXED_PAYLOAD_SZ = true)
    (hsize : cb.entry_size = some size)
    (hinv : pipe.num_entries = (pipe.entries.length : Int))
    (hnn : ∀ e ∈ pipe.entries, 0 ≤ size dce e)
    (hsum : (pipe.entries.map (size dce)).sum < 2 ^ 31)
    (hcap : 2 * dce.payload_sz < 2 ^ 64)
    (hk : k ≤ pipe.entries.length)
    (hbelow : ∀ j, 1 ≤ j → j ≤ k →
      cumulative_size (size dce) pipe.entries j < ((2 * dce.payload_sz / 3 : Nat) : Int))
    (hreach : k < pipe.entries.length →
      ((2 * dce.payload_sz / 3 : Nat) : Int) ≤ cumulative_size (size dce) pipe.entries (k + 1))
    (hproc : ∀ f, pipe.entry_processed = some f → ∀ n, n ≤ pipe.entries.length →
      ∃ r, processed_loop f n pipe.topipe_data released = some r) :
    array_budget dce cb pipe.topipe_data
      = some ((k : Int), if k < pipe.entries.length then CIFSD_DCERPC_ERROR_MORE_DATA else 0)
    ∧ ∃ r : array_result α,
      ndr_write_array_of_structs cb dce pipe released = some r
      ∧ (all_return_zero cb.entry_rep (pipe.entries.take k) (array_header dce k) = true →
          all_return_zero cb.entry_data (pipe.entries.take k)
            (apply_all cb.entry_rep (pipe.entries.take k) (array_header dce k)) = true →
          r.status = (if k = 0 then CIFSD_DCERPC_ERROR_INVALID_LEVEL
              else if k < pipe.entries.length then CIFSD_DCERPC_ERROR_MORE_DATA else 0)
          ∧ r.dce = apply_all cb.entry_data (pipe.entries.take k)
              (apply_all cb.entry_rep (pipe.entries.take k) (array_header dce k))) := by
  have hmul : size_mul 2 dce.payload_sz = 2 * dce.payload_sz := by
    unfold size_mul SIZE_MOD
    exact Nat.mod_eq_of_lt hcap
  obtain ⟨k2, hk1, _, hk3, hk4, hk5⟩ :=
    budget_loop_spec dce size pipe.topipe_data hinv hnn hsum pipe.entries.length 0 (by simp)
  rw [hmul] at hk4 hk5
  have hkk : k2 = k := by
    rcases Nat.lt_trichotomy k2 k with h | h | h
    · have h1 := hbelow (k2 + 1) (by omega) (by omega)
      have h2 := hk5 (by omega)
      omega
    · exact h
    · have h1 := hk4 (k + 1) (by omega) (by omega)
      have h2 := hreach (by omega)
      omega
  subst hkk
  have hb : array_budget dce cb pipe.topipe_data
      = some ((k2 : Int), if k2 < pipe.entries.length then CIFSD_DCERPC_ERROR_MORE_DATA else 0) := by
    unfold array_budget
    rw [hfixed, hsize]
    simp only [hinv, Int.toNat_ofNat]
    exact hk1
  refine ⟨hb, ?_⟩
  unfold ndr_write_array_of_structs
  simp only [hb]
  by_cases hk0 : (k2 : Int) = 0
  · have hkn : k2 = 0 := by exact_mod_cast hk0
    subst hkn
    simp only [Nat.cast_zero, if_true]
    exact ⟨_, rfl, fun _ _ => ⟨rfl, rfl⟩⟩
  · have hkn : k2 ≠ 0 := by exact_mod_cast hk0
    simp only [hk0, if_false, Int.toNat_ofNat]
    obtain ⟨r4, h4⟩ := marshal_loop_total cb.entry_rep pipe.entries k2 0
      (ndr_write_int32 (ndr_write_int32 (ndr_write_int32 dce k2).2 1).2 k2).2 (by omega)
    have e4 : all_return_zero cb.entry_rep (pipe.entries.take k2) (array_header dce k2) = true →
        r4 = (0, apply_all cb.entry_rep (pipe.entries.take k2) (array_header dce k2)) := by
      intro hrep
      have h := marshal_loop_eq cb.entry_rep pipe.entries k2 0 (array_header dce k2) (by omega)
        (by simpa using hrep)
      simp only [List.drop_zero] at h
      unfold array_header at h
      rw [h] at h4
      exact (Option.some.inj h4).symm
    simp only [h4]
    by_cases hr4 : r4.1 = 0
    · simp only [hr4, ne_eq, not_true_eq_false, if_false]
      obtain ⟨r5, h5⟩ := marshal_loop_total cb.entry_data pipe.entries k2 0 r4.2 (by omega)
      have e5 : all_return_zero cb.entry_rep (pipe.entries.take k2) (array_header dce k2) = true →
          all_return_zero cb.entry_data (pipe.entries.take k2)
            (apply_all cb.entry_rep (pipe.entries.take k2) (array_header dce k2)) = true →
          r5 = (0, apply_all cb.entry_data (pipe.entries.take k2)
            (apply_all cb.entry_rep (pipe.entries.take k2) (array_header dce k2))) := by
        intro hrep hdata
        have h := marshal_loop_eq cb.entry_data pipe.entries k2 0
          (apply_all cb.entry_rep (pipe.entries.take k2) (array_header dce k2)) (by omega)
          (by simpa using hdata)
        simp only [List.drop_zero] at h
        rw [e4 hrep] at h5
        rw [h] at h5
        exact (Option.some.inj h5).symm
      simp only [h5]
      by_cases hr5 : r5.1 = 0
      · simp only [hr5, ne_eq, not_true_eq_false, if_false]
        cases hp : pipe.entry_processed with
        | none =>
          refine ⟨_, rfl, fun hrep hdata => ?_⟩
          simp only [hkn, if_false, e5 hrep hdata, and_self]
        | some f =>
          obtain ⟨r6, h6⟩ := hproc f hp k2 hk3
          simp only [h6]
          refine ⟨_, rfl, fun hrep hdata => ?_⟩
          simp only [hkn, if_false, e5 hrep hdata, and_self]
      · simp only [hr5, ne_eq, not_false_eq_true, if_true]
        refine ⟨_, rfl, fun hrep hdata => ?_⟩
        rw [e5 hrep hdata] at hr5
        exact absurd rfl hr5
    · simp only [hr4, ne_eq, not_false_eq_true, if_true]
      refine ⟨_, rfl, fun hrep _ => ?_⟩
      rw [e4 hrep] at hr4
      exact absurd rfl hr4

/-- Witness of C3 as amended: capacity 60, the entries "A", "BB", "CCC" with the
level-0 callbacks; two entries are selected (18 and 38 are below 40, 60 is
not), the two `entry_rep` and the two `entry_data` calls return 0, and the call
returns MORE_DATA. -/
theorem array_budget_selection_witness :
    array_budget (ctx 19 60 0) callbacks_ctr0 pipe7_ABC.topipe_data
      = some (2, CIFSD_DCERPC_ERROR_MORE_DATA)
    ∧ all_return_zero callbacks_ctr0.entry_rep (pipe7_ABC.entries.take 2)
        (array_header (ctx 19 60 0) 2) = true
    ∧ all_return_zero callbacks_ctr0.entry_data (pipe7_ABC.entries.take 2)
        (apply_all callbacks_ctr0.entry_rep (pipe7_ABC.entries.take 2)
          (array_header (ctx 19 60 0) 2)) = true
    ∧ ∃ r : array_result cifsd_share,
      ndr_write_array_of_structs callbacks_ctr0 (ctx 19 60 0) pipe7_ABC [] = some r
      ∧ r.status = CIFSD_DCERPC_ERROR_MORE_DATA
      ∧ r.dce = apply_all callbacks_ctr0.entry_data (pipe7_ABC.entries.take 2)
          (apply_all callbacks_ctr0.entry_rep (pipe7_ABC.entries.take 2)
            (array_header (ctx 19 60 0) 2)) := by
  obtain ⟨hb, r, hr, hst⟩ :=
    array_budget_selection callbacks_ctr0 (ctx 19 60 0) pipe7_ABC [] __share_entry_size_ctr0 2
      (by decide) rfl (by decide) (by decide) (by decide) (by decide) (by decide)
      (fun j h1 h2 => by
        have hj : j = 1 ∨ j = 2 := by omega
        rcases hj with hj | hj <;> subst hj <;> decide)
      (fun _ => by decide)
      (fun f hf n hn => by
        have h : f = __share_entry_processed := by
          have h2 : some __share_entry_processed = some f := hf
          exact (Option.some.inj h2).symm
        subst h
        exact ⟨_, processed_loop_share n pipe7_ABC.topipe_data [] hn⟩)
  exact ⟨hb, by decide, by decide, r, hr, (hst (by decide) (by decide)).1,
    (hst (by decide) (by decide)).2⟩

/-- C4: for a pipe of shares whose count equals the length N of its entry
sequence and whose consumption callback is `__share_entry_processed`,
`ndr_write_array_of_structs` returns a result, and when the status is success
or MORE_DATA and k entries were selected, the entry sequence of the pipe is the
original entries k..N-1 in order, `num_entries` is N - k and equals the length
of the sequence, and the release log grew by exactly the original entries
0..k-1, once each, in order; id and callback of the pipe are unchanged. -/
theorem share_entries_retired (cb : dcerpc_callbacks cifsd_share) (dce : cifsd_dcerpc)
    (pipe : cifsd_rpc_pipe cifsd_share) (released : List cifsd_share)
    (hinv : pipe.num_entries = (pipe.entries.length : Int))
    (hcb : pipe.entry_processed = some __share_entry_processed) :
    ∃ (k : Nat) (hm : Int) (r : array_result cifsd_share),
      array_budget dce cb pipe.topipe_data = some ((k : Int), hm)
      ∧ k ≤ pipe.entries.length
      ∧ ndr_write_array_of_structs cb dce pipe released = some r
      ∧ ((r.status = 0 ∨ r.status = CIFSD_DCERPC_ERROR_MORE_DATA) →
          r.status = hm
          ∧ r.pipe.entries = pipe.entries.drop k
          ∧ r.pipe.num_entries = (pipe.entries.length : Int) - (k : Int)
          ∧ r.pipe.num_entries = (r.pipe.entries.length : Int)
          ∧ r.released = released ++ pipe.entries.take k
          ∧ r.pipe.id = pipe.id
          ∧ r.pipe.entry_processed = some __share_entry_processed) := by
  obtain ⟨k, hm, hb, hk, _⟩ := array_budget_total dce cb pipe.topipe_data hinv
  suffices main : ∃ r : array_result cifsd_share,
      ndr_write_array_of_structs cb dce pipe released = some r
      ∧ ((r.status = 0 ∨ r.status = CIFSD_DCERPC_ERROR_MORE_DATA) →
          r.status = hm
          ∧ r.pipe.entries = pipe.entries.drop k
          ∧ r.pipe.num_entries = (pipe.entries.length : Int) - (k : Int)
          ∧ r.pipe.num_entries = (r.pipe.entries.length : Int)
          ∧ r.released = released ++ pipe.entries.take k
          ∧ r.pipe.id = pipe.id
          ∧ r.pipe.entry_processed = some __share_entry_processed) by
    obtain ⟨r, h1, h2⟩ := main
    exact ⟨k, hm, r, hb, hk, h1, h2⟩
  unfold ndr_write_array_of_structs
  simp only [hb]
  by_cases hk0 : (k : Int) = 0
  · simp only [hk0, if_true]
    refine ⟨_, rfl, ?_⟩
    intro h
    simp [CIFSD_DCERPC_ERROR_INVALID_LEVEL, CIFSD_DCERPC_ERROR_MORE_DATA] at h
  · simp only [hk0, if_false, Int.toNat_ofNat]
    obtain ⟨r4, h4⟩ := marshal_loop_total cb.entry_rep pipe.entries k 0
      (ndr_write_int32 (ndr_write_int32 (ndr_write_int32 dce k).2 1).2 k).2 (by omega)
    simp only [h4]
    by_cases hr4 : r4.1 = 0
    · simp only [hr4, ne_eq, not_true_eq_false, if_false]
      obtain ⟨r5, h5⟩ := marshal_loop_total cb.entry_data pipe.entries k 0 r4.2 (by omega)
      simp only [h5]
      by_cases hr5 : r5.1 = 0
      · simp only [hr5, ne_eq, not_true_eq_false, if_false, hcb,
          processed_loop_share k pipe.topipe_data released hk]
        refine ⟨_, rfl, ?_⟩
        intro _
        refine ⟨rfl, rfl, ?_, ?_, rfl, rfl, rfl⟩
        · simp [hinv]
        · simp [hinv]
          omega
      · simp only [hr5, ne_eq, not_false_eq_true, if_true]
        refine ⟨_, rfl, ?_⟩
        intro h
        simp [CIFSD_DCERPC_ERROR_INVALID_LEVEL, CIFSD_DCERPC_ERROR_MORE_DATA] at h
    · simp only [hr4, ne_eq, not_false_eq_true, if_true]
      refine ⟨_, rfl, ?_⟩
      intro h
      simp [CIFSD_DCERPC_ERROR_INVALID_LEVEL, CIFSD_DCERPC_ERROR_MORE_DATA] at h

/-- Witness of C4: capacity 60, the entries "A", "BB", "CCC" with the level-0
callbacks; the call returns MORE_DATA, leaves "CCC" and releases "A", "BB". -/
theorem share_entries_retired_witness :
    pipe7_ABC.num_entries = (pipe7_ABC.entries.length : Int)
    ∧ pipe7_ABC.entry_processed = some __share_entry_processed
    ∧ (ndr_write_array_of_structs callbacks_ctr0 (ctx 19 60 0) pipe7_ABC []).map
        (fun r => (r.status, r.pipe.entries, r.pipe.num_entries, r.released))
      = some (CIFSD_DCERPC_ERROR_MORE_DATA, [share_CCC], 1, [share_A, share_BB])
    ∧ ∃ (k : Nat) (hm : Int) (r : array_result cifsd_share),
      array_budget (ctx 19 60 0) callbacks_ctr0 pipe7_ABC.topipe_data = some ((k : Int), hm)
      ∧ k ≤ pipe7_ABC.entries.length
      ∧ ndr_write_array_of_structs callbacks_ctr0 (ctx 19 60 0) pipe7_ABC [] = some r
      ∧ ((r.status = 0 ∨ r.status = CIFSD_DCERPC_ERROR_MORE_DATA) →
          r.status = hm
          ∧ r.pipe.entries = pipe7_ABC.entries.drop k
          ∧ r.pipe.num_entries = (pipe7_ABC.entries.length : Int) - (k : Int)
          ∧ r.pipe.num_entries = (r.pipe.entries.length : Int)
          ∧ r.released = [] ++ pipe7_ABC.entries.take k
          ∧ r.pipe.id = pipe7_ABC.id
          ∧ r.pipe.entry_processed = some __share_entry_processed) :=
  ⟨by decide, rfl, by decide,
   share_entries_retired callbacks_ctr0 (ctx 19 60 0) pipe7_ABC [] (by decide) rfl⟩

/-- C5, evaluated on the code: pipe 7 populated by `rpc_share_enum_all` with "A",
"BB", "CCC" (consumption callback registered), level 0, flags
`LITTLE_ENDIAN | ALIGN4 | FIXED` with the maximum preferred size, so that
`dcerpc_alloc` yields a growable context.  The array actual-count (offset 20)
is 3 and the response ends at offset 100, but the trailing total-entries
field (offset 88) is 0, not 3: it is written from `pipe->num_entries` after
the three entries were retired.  The same call on the pipe without callback
writes 3. -/
theorem share_enum_all_trailer_after_retire :
    (∃ r d, rpc_srvsvc_share_enum_all g_convert_7bit env_ok pipe7_ABC [] 0 19 65536 = some r
      ∧ r.dce = some d
      ∧ test_flag d CIFSD_DCERPC_FIXED_PAYLOAD_SZ = false
      ∧ word_at d 20 = 3
      ∧ d.offset = 100
      ∧ word_at d 88 = 0
      ∧ word_at d 92 = 0
      ∧ word_at d 96 = 0
      ∧ r.pipe.num_entries = 0)
    ∧ (∃ r d, rpc_srvsvc_share_enum_all g_convert_7bit env_ok
          { pipe7_ABC with entry_processed := none } [] 0 19 65536 = some r
      ∧ r.dce = some d
      ∧ word_at d 20 = 3
      ∧ word_at d 88 = 3) := by
  refine ⟨⟨_, _, rfl, rfl, ?_⟩, ⟨_, _, rfl, rfl, ?_⟩⟩
  · decide
  · decide

/-- C6, evaluated on the code: a duplicate create mutates the registry.  With
pipe P (id 7, three entries) registered at address 0 (the table shape
`rpc_pipe_alloc(7)` produces on the empty registry), `rpc_pipe_alloc(7)`
returns the null pointer, yet afterwards `rpc_pipe_lookup(7)` returns
address 1, the block of the new pipe that was just freed, instead of P;
P itself is still allocated, with its entries, and no longer reachable. -/
theorem rpc_pipe_alloc_duplicate_replaces :
    (rpc_pipe_alloc true registry_empty 7).map (fun r => (r.1, r.2.pipes_table))
      = some (some 0, [⟨7, 0, 0⟩])
    ∧ rpc_pipe_lookup registry7 7 = some (some 0)
    ∧ ∃ st, rpc_pipe_alloc true registry7 7 = some (none, st)
        ∧ rpc_pipe_lookup st 7 = some (some 1)
        ∧ (st.heap.get? 1).map (fun c => c.live) = some false
        ∧ (st.heap.get? 0).map (fun c => (c.live, c.pipe.id, c.pipe.entries))
            = some (true, 7, [share_A, share_BB, share_CCC]) := by
  refine ⟨by decide, by decide, _, rfl, ?_⟩
  decide

/-- C7, evaluated on the code: for id 0xFFFFFFFF destroy does not unregister.
On the empty registry `rpc_pipe_alloc(0xFFFFFFFF)` succeeds with the pipe at
address 0 and `rpc_pipe_lookup(0xFFFFFFFF)` returns it; after `rpc_pipe_free`
of that pipe the table still holds its node, whose key pointer and value
pointer are the address of the freed block, so `rpc_pipe_lookup(0xFFFFFFFF)`
compares through a pointer into freed memory and has no defined result.  The
same steps with id 5 empty the table, and the lookup returns the null
pointer. -/
theorem rpc_pipe_free_sentinel_id_stays :
    (∃ st1 st2, rpc_pipe_alloc true registry_empty 4294967295 = some (some 0, st1)
      ∧ rpc_pipe_lookup st1 4294967295 = some (some 0)
      ∧ rpc_pipe_free st1 0 = some st2
      ∧ st2.pipes_table = [⟨4294967295, 0, 0⟩]
      ∧ (st2.heap.get? 0).map (fun c => c.live) = some false
      ∧ rpc_pipe_lookup st2 4294967295 = none)
    ∧ (∃ st1 st2, rpc_pipe_alloc true registry_empty 5 = some (some 0, st1)
      ∧ rpc_pipe_lookup st1 5 = some (some 0)
      ∧ rpc_pipe_free st1 0 = some st2
      ∧ st2.pipes_table = []
      ∧ (st2.heap.get? 0).map (fun c => c.live) = some false
      ∧ rpc_pipe_lookup st2 5 = some none) := by
  refine ⟨⟨_, _, rfl, ?_, rfl, ?_⟩, ⟨_, _, rfl, ?_, rfl, ?_⟩⟩
  · decide
  · decide
  · decide
  · decide

/-- C8, evaluated on the code: in a fixed context of capacity 2 at offset 0,
`try_realloc_payload` for 4 bytes reports success (the `size_t` difference
`2 - 4` wraps around), although 4 exceeds the capacity; and in a fixed
context of capacity 8 at offset 4 a request for 4 bytes, which fits exactly,
is refused. -/
theorem try_realloc_payload_wraps :
    test_flag (ctx 16 2 0) CIFSD_DCERPC_FIXED_PAYLOAD_SZ = true
    ∧ (try_realloc_payload (ctx 16 2 0) 4).1 = 0
    ∧ (try_realloc_payload { ctx 16 8 0 with offset := 4 } 4).1 = -ENOMEM := by
  decide

/-- C9, evaluated on the code: in a fixed context of capacity 8 at offset 0,
`ndr_write_bytes` of 16 bytes reports success, leaves the offset at 16 with
`payload_sz` still 8, and stores a byte at index 15. -/
theorem ndr_write_bytes_overruns :
    (ndr_write_bytes (ctx 16 8 0) (List.replicate 16 1) 16).1 = 0
    ∧ (ndr_write_bytes (ctx 16 8 0) (List.replicate 16 1) 16).2.offset = 16
    ∧ (ndr_write_bytes (ctx 16 8 0) (List.replicate 16 1) 16).2.payload_sz = 8
    ∧ (ndr_write_bytes (ctx 16 8 0) (List.replicate 16 1) 16).2.payload 15 = 1 := by
  decide

/-- C10, evaluated on the code: on a buffer filled with 0xAA,
`ndr_write_int32` of 0x01020304 at offset 0 succeeds and leaves the bytes
04 AA AA AA under `LITTLE_ENDIAN` (the encoding is 04 03 02 01) and
01 AA AA AA without it (the encoding is 01 02 03 04): one byte is stored. -/
theorem ndr_write_int_stores_one_byte :
    (ndr_write_int32 (ctx 1 4096 170) 16909060).1 = 0
    ∧ (List.range 4).map (ndr_write_int32 (ctx 1 4096 170) 16909060).2.payload
        = [4, 170, 170, 170]
    ∧ (ndr_write_int32 (ctx 0 4096 170) 16909060).1 = 0
    ∧ (List.range 4).map (ndr_write_int32 (ctx 0 4096 170) 16909060).2.payload
        = [1, 170, 170, 170] := by
  decide

/-- C11, evaluated on the code: the counts do not include a terminator element
and are not the byte count under `ASCII_STRING`.  For "A" with
`LITTLE_ENDIAN` the three words are 1, 0, 1 and two payload bytes (65, 0)
follow, the cursor ending at 14; the claim gives counts 2 and four payload
bytes.  For "AB" with `LITTLE_ENDIAN | ASCII_STRING` the counts are 1 and two
payload bytes (65, 66) follow; the claim gives counts 3 and three bytes. -/
theorem ndr_write_vstring_counts_no_terminator :
    (ndr_write_vstring g_convert_7bit (ctx 1 4096 170) (some [65])).1 = 0
    ∧ word_at (ndr_write_vstring g_convert_7bit (ctx 1 4096 170) (some [65])).2 0 = 1
    ∧ word_at (ndr_write_vstring g_convert_7bit (ctx 1 4096 170) (some [65])).2 4 = 0
    ∧ word_at (ndr_write_vstring g_convert_7bit (ctx 1 4096 170) (some [65])).2 8 = 1
    ∧ (ndr_write_vstring g_convert_7bit (ctx 1 4096 170) (some [65])).2.offset = 14
    ∧ (List.range 6).map (fun i =>
        (ndr_write_vstring g_convert_7bit (ctx 1 4096 170) (some [65])).2.payload (12 + i))
        = [65, 0, 170, 170, 170, 170]
    ∧ (ndr_write_vstring g_convert_7bit (ctx 9 4096 170) (some [65, 66])).1 = 0
    ∧ word_at (ndr_write_vstring g_convert_7bit (ctx 9 4096 170) (some [65, 66])).2 0 = 1
    ∧ word_at (ndr_write_vstring g_convert_7bit (ctx 9 4096 170) (some [65, 66])).2 8 = 1
    ∧ (ndr_write_vstring g_convert_7bit (ctx 9 4096 170) (some [65, 66])).2.offset = 14
    ∧ (List.range 4).map (fun i =>
        (ndr_write_vstring g_convert_7bit (ctx 9 4096 170) (some [65, 66])).2.payload (12 + i))
        = [65, 66, 170, 170] := by
  decide

/-- C12: when `ndr_write_array_of_structs` selects k entries, k at least 1, over a
pipe whose count equals the length of its entry sequence, and every
`entry_rep` and `entry_data` call of the run returns 0 (and the consumption
callback, if any, stays inside the entry array), the call returns the
continuation status of the selection and the context it leaves is the result
of, in this order: the 32-bit writes of k, 1 and k, then `entry_rep` on the
entries 0..k-1 in order, then `entry_data` on the entries 0..k-1 in order;
only the first k entries are marshalled. -/
theorem two_phase_layout {α : Type} (cb : dcerpc_callbacks α) (dce : cifsd_dcerpc)
    (pipe : cifsd_rpc_pipe α) (released : List α) (k : Nat) (hm : Int)
    (hinv : pipe.num_entries = (pipe.entries.length : Int))
    (hb : array_budget dce cb pipe.topipe_data = some ((k : Int), hm))
    (hk : 1 ≤ k)
    (hrep : all_return_zero cb.entry_rep (pipe.entries.take k) (array_header dce k) = true)
    (hdata : all_return_zero cb.entry_data (pipe.entries.take k)
      (apply_all cb.entry_rep (pipe.entries.take k) (array_header dce k)) = true)
    (hproc : ∀ f, pipe.entry_processed = some f → ∀ n, n ≤ pipe.entries.length →
      ∃ r, processed_loop f n pipe.topipe_data released = some r) :
    ∃ r : array_result α,
      ndr_write_array_of_structs cb dce pipe released = some r
      ∧ r.status = hm
      ∧ r.dce = apply_all cb.entry_data (pipe.entries.take k)
          (apply_all cb.entry_rep (pipe.entries.take k) (array_header dce k))
      ∧ k ≤ pipe.entries.length := by
  obtain ⟨k2, hm2, hb2, hk2, _⟩ := array_budget_total dce cb pipe.topipe_data hinv
  rw [hb] at hb2
  have hkk : k = k2 := by
    have h1 := congrArg (fun o => o.map Prod.fst) hb2
    simp at h1
    exact h1
  subst hkk
  have hk0 : ¬ ((k : Int) = 0) := by omega
  have h4 := marshal_loop_eq cb.entry_rep pipe.entries k 0 (array_header dce k) (by omega)
    (by simpa using hrep)
  have h5 := marshal_loop_eq cb.entry_data pipe.entries k 0
    (apply_all cb.entry_rep (pipe.entries.take k) (array_header dce k)) (by omega)
    (by simpa using hdata)
  simp only [List.drop_zero] at h4 h5
  unfold ndr_write_array_of_structs
  simp only [hb, hk0, if_false, Int.toNat_ofNat]
  unfold array_header at h4 h5
  simp only [h4, h5, ne_eq, not_true_eq_false, if_false]
  cases hp : pipe.entry_processed with
  | none => exact ⟨_, rfl, rfl, rfl, hk2⟩
  | some f =>
    obtain ⟨r6, h6⟩ := hproc f hp k hk2
    simp only [h6]
    exact ⟨_, rfl, rfl, rfl, hk2⟩

/-- Witness of C12: capacity 60, the entries "A", "BB", "CCC" with the level-0
callbacks; two entries are selected. -/
theorem two_phase_layout_witness :
    pipe7_ABC.num_entries = (pipe7_ABC.entries.length : Int)
    ∧ array_budget (ctx 19 60 0) callbacks_ctr0 pipe7_ABC.topipe_data
        = some (((2 : Nat) : Int), CIFSD_DCERPC_ERROR_MORE_DATA)
    ∧ all_return_zero callbacks_ctr0.entry_rep (pipe7_ABC.entries.take 2)
        (array_header (ctx 19 60 0) ((2 : Nat) : Int)) = true
    ∧ all_return_zero callbacks_ctr0.entry_data (pipe7_ABC.entries.take 2)
        (apply_all callbacks_ctr0.entry_rep (pipe7_ABC.entries.take 2)
          (array_header (ctx 19 60 0) ((2 : Nat) : Int))) = true
    ∧ ∃ r : array_result cifsd_share,
      ndr_write_array_of_structs callbacks_ctr0 (ctx 19 60 0) pipe7_ABC [] = some r
      ∧ r.status = CIFSD_DCERPC_ERROR_MORE_DATA
      ∧ r.dce = apply_all callbacks_ctr0.entry_data (pipe7_ABC.entries.take 2)
          (apply_all callbacks_ctr0.entry_rep (pipe7_ABC.entries.take 2)
            (array_header (ctx 19 60 0) ((2 : Nat) : Int)))
      ∧ 2 ≤ pipe7_ABC.entries.length :=
  ⟨by decide, by decide, by decide, by decide,
   two_phase_layout callbacks_ctr0 (ctx 19 60 0) pipe7_ABC [] 2 CIFSD_DCERPC_ERROR_MORE_DATA
     (by decide) (by decide) (by decide) (by decide) (by decide)
     (fun f hf n hn => by
        have h : f = __share_entry_processed := by
          have h2 : some __share_entry_processed = some f := hf
          exact (Option.some.inj h2).symm
        subst h
        exact ⟨_, processed_loop_share n pipe7_ABC.topipe_data [] hn⟩)⟩

/-- C14, evaluated on the code: with byte 0 of the data-representation field equal to 0,
3 or 255 `rpc_srvsvc_parse_dcerpc_hdr` returns success, as it does for 1; only
for 2 does it return `-EINVAL`. -/
theorem parse_hdr_accepts_other_types :
    (dcerpc_parser_alloc true (buffer_of (header_bytes 0 1)) 16).map
        (fun d => (rpc_srvsvc_parse_dcerpc_hdr d hdr_zero).1) = some 0
    ∧ (dcerpc_parser_alloc true (buffer_of (header_bytes 3 1)) 16).map
        (fun d => (rpc_srvsvc_parse_dcerpc_hdr d hdr_zero).1) = some 0
    ∧ (dcerpc_parser_alloc true (buffer_of (header_bytes 255 1)) 16).map
        (fun d => (rpc_srvsvc_parse_dcerpc_hdr d hdr_zero).1) = some 0
    ∧ (dcerpc_parser_alloc true (buffer_of (header_bytes 1 1)) 16).map
        (fun d => (rpc_srvsvc_parse_dcerpc_hdr d hdr_zero).1) = some 0
    ∧ (dcerpc_parser_alloc true (buffer_of (header_bytes 2 1)) 16).map
        (fun d => (rpc_srvsvc_parse_dcerpc_hdr d hdr_zero).1) = some (-EINVAL) := by
  decide

/-- C15, evaluated on the code: for the 16-byte header with fragment length 16 at
bytes 8-9, authentication length 32 at bytes 10-11 and call id 7 at bytes
12-15 (little-endian), the parse succeeds and sets the four one-byte members
and `packed_drep` as claimed and `frag_length` = 16, but `auth_length` = 7
(read at byte 12, after the cursor was aligned from 10 to 12), `call_id` = 99
(read at byte 16) and the cursor ends at 20. -/
theorem parse_hdr_alignment_skips_fields :
    ∃ d r, dcerpc_parser_alloc true (buffer_of (header_bytes 1 1)) 16 = some d
      ∧ rpc_srvsvc_parse_dcerpc_hdr d hdr_zero = r
      ∧ r.1 = 0
      ∧ r.2.2.rpc_vers = 5 ∧ r.2.2.rpc_vers_minor = 0 ∧ r.2.2.ptype = 0 ∧ r.2.2.pfc_flags = 3
      ∧ r.2.2.packed_drep = [1, 1, 0, 0]
      ∧ r.2.2.frag_length = 16
      ∧ r.2.2.auth_length = 7
      ∧ r.2.2.call_id = 99
      ∧ r.2.1.offset = 20 := by
  refine ⟨_, _, rfl, rfl, ?_⟩
  decide

/-- C16: `rpc_srvsvc_parse_dcerpc_hdr` reads the data-representation field at
the four bytes that follow the first four bytes at the cursor.  When byte 0 of
that field is not the type-2 marker the call returns 0 and the context has
`ALIGN4` set, has `LITTLE_ENDIAN` set exactly when byte 1 of the field is the
little-endian marker, and `ALIGN8`, `FIXED`, `EXTERNAL` and `ASCII_STRING` are
as before; when byte 0 is the type-2 marker the call returns `-EINVAL` and the
flag word is unchanged.  On the contexts of `dcerpc_parser_alloc` (flag word
48) over the headers with field bytes (1, 1), (1, 0) and (2, 1) the status and
flag word are (0, 51), (0, 50) and (`-EINVAL`, 48). -/
theorem parse_hdr_flags (dce : cifsd_dcerpc) (hdr : dcerpc_header) :
    (dce.payload (size_add dce.offset 4) % 256 = DCERPC_SERIALIZATION_TYPE2 →
      (rpc_srvsvc_parse_dcerpc_hdr dce hdr).1 = -EINVAL
      ∧ (rpc_srvsvc_parse_dcerpc_hdr dce hdr).2.1.flags = dce.flags)
    ∧ (dce.payload (size_add dce.offset 4) % 256 ≠ DCERPC_SERIALIZATION_TYPE2 →
      (rpc_srvsvc_parse_dcerpc_hdr dce hdr).1 = 0
      ∧ test_flag (rpc_srvsvc_parse_dcerpc_hdr dce hdr).2.1 CIFSD_DCERPC_ALIGN4 = true
      ∧ (test_flag (rpc_srvsvc_parse_dcerpc_hdr dce hdr).2.1 CIFSD_DCERPC_LITTLE_ENDIAN = true
          ↔ dce.payload (size_add dce.offset 4 + 1) % 256 = DCERPC_SERIALIZATION_LITTLE_ENDIAN)
      ∧ test_flag (rpc_srvsvc_parse_dcerpc_hdr dce hdr).2.1 CIFSD_DCERPC_ALIGN8
          = test_flag dce CIFSD_DCERPC_ALIGN8
      ∧ test_flag (rpc_srvsvc_parse_dcerpc_hdr dce hdr).2.1 CIFSD_DCERPC_FIXED_PAYLOAD_SZ
          = test_flag dce CIFSD_DCERPC_FIXED_PAYLOAD_SZ
      ∧ test_flag (rpc_srvsvc_parse_dcerpc_hdr dce hdr).2.1 CIFSD_DCERPC_EXTERNAL_PAYLOAD
          = test_flag dce CIFSD_DCERPC_EXTERNAL_PAYLOAD
      ∧ test_flag (rpc_srvsvc_parse_dcerpc_hdr dce hdr).2.1 CIFSD_DCERPC_ASCII_STRING
          = test_flag dce CIFSD_DCERPC_ASCII_STRING)
    ∧ (dcerpc_parser_alloc true (buffer_of (header_bytes 1 1)) 16).map
        (fun d => ((rpc_srvsvc_parse_dcerpc_hdr d hdr_zero).1,
          (rpc_srvsvc_parse_dcerpc_hdr d hdr_zero).2.1.flags)) = some (0, 51)
    ∧ (dcerpc_parser_alloc true (buffer_of (header_bytes 1 0)) 16).map
        (fun d => ((rpc_srvsvc_parse_dcerpc_hdr d hdr_zero).1,
          (rpc_srvsvc_parse_dcerpc_hdr d hdr_zero).2.1.flags)) = some (0, 50)
    ∧ (dcerpc_parser_alloc true (buffer_of (header_bytes 2 1)) 16).map
        (fun d => ((rpc_srvsvc_parse_dcerpc_hdr d hdr_zero).1,
          (rpc_srvsvc_parse_dcerpc_hdr d hdr_zero).2.1.flags)) = some (-EINVAL, 48) := by
  have hst := parse_hdr_status dce hdr
  have hfl := parse_hdr_flags_of_drep dce hdr
  rw [parse_hdr_packed_drep, parse_hdr_drep] at hfl
  simp only [List.getD_cons_succ, List.getD_cons_zero] at hfl
  refine ⟨fun h => ?_, fun h => ?_, by decide, by decide, by decide⟩
  · rw [if_pos h] at hst
    refine ⟨hst, hfl.2 ?_⟩
    rw [hst]
    decide
  · rw [if_neg h] at hst
    exact ⟨hst, hfl.1 hst⟩

/-- C17: `ndr_read_union` returns the value `ndr_read_int32` returns at the initial
cursor, whatever the second word is; it is total, and the context it leaves
is the one after two consecutive `ndr_read_int32` calls; when both reads
yield D it returns D.  On the words 5 and 9 it returns 5 with the cursor at
8. -/
theorem ndr_read_union_lenient (dce : cifsd_dcerpc) :
    (ndr_read_union dce).1 = (ndr_read_int32 dce).1
    ∧ (ndr_read_union dce).2 = (ndr_read_int32 (ndr_read_int32 dce).2).2
    ∧ (∀ D : Int, (ndr_read_int32 dce).1 = D → (ndr_read_int32 (ndr_read_int32 dce).2).1 = D →
        (ndr_read_union dce).1 = D)
    ∧ (ndr_read_union { ctx 1 64 0 with payload := buffer_of [5, 0, 0, 0, 9, 0, 0, 0] }).1 = 5
    ∧ (ndr_read_union { ctx 1 64 0 with payload := buffer_of [5, 0, 0, 0, 9, 0, 0, 0] }).2.offset
        = 8 := by
  refine ⟨?_, ?_, ?_, by decide, by decide⟩
  · simp only [ndr_read_union]
  · simp only [ndr_read_union]
  · intro D h _
    simp only [ndr_read_union]
    exact h

/-- C19, evaluated on the code: the decoded length follows the first header word
(max count M), not the third (actual count A).  On a buffer holding the
UTF-16LE text "ABC" after the header: M = 2, A = 1 yields "AB" with the
cursor at 16; M = 3, A = 1 yields "ABC" with the cursor at 18; M = 1, A = 0
yields "A" with the cursor at 14 (the claim: the empty string, cursor at 12);
M = 0, A = 1 yields the empty string with the cursor at 12. -/
theorem ndr_read_vstring_uses_max_count :
    (ndr_read_vstring g_convert_7bit (vstring_buffer 2 1)).1 = some [65, 66]
    ∧ (ndr_read_vstring g_convert_7bit (vstring_buffer 2 1)).2.offset = 16
    ∧ (ndr_read_vstring g_convert_7bit (vstring_buffer 3 1)).1 = some [65, 66, 67]
    ∧ (ndr_read_vstring g_convert_7bit (vstring_buffer 3 1)).2.offset = 18
    ∧ (ndr_read_vstring g_convert_7bit (vstring_buffer 1 0)).1 = some [65]
    ∧ (ndr_read_vstring g_convert_7bit (vstring_buffer 1 0)).2.offset = 14
    ∧ (ndr_read_vstring g_convert_7bit (vstring_buffer 0 1)).1 = some []
    ∧ (ndr_read_vstring g_convert_7bit (vstring_buffer 0 1)).2.offset = 12 := by
  decide

/-- C20 as stated fails.  Fixed context of capacity 60 with `ALIGN4`, level 0,
entries "A", "BB", "CCC": the budget selects 2 entries, the response needs 76
bytes, a data callback reports failure so that the array marshaller returns
invalid-level, the cursor stops at 60 and a further 32-bit write returns
`-ENOMEM`.  Capacity 128 with entries "A", "A", "A", "AAAAAAA": all 4 are
selected, the response needs 128 bytes, and the last write of the trailer is
refused, the cursor staying at 124. -/
theorem two_thirds_margin_counterexample :
    test_flag (ctx 19 60 0) CIFSD_DCERPC_FIXED_PAYLOAD_SZ = true
    ∧ test_flag (ctx 19 60 0) CIFSD_DCERPC_ALIGN4 = true
    ∧ (dcerpc_alloc env_ok 19 60).map
        (fun dce => array_budget (share_enum_prologue dce 0 pipe7_ABC.num_entries)
          (share_callbacks g_convert_7bit 0) pipe7_ABC.topipe_data)
      = some (some (2, CIFSD_DCERPC_ERROR_MORE_DATA))
    ∧ (dcerpc_alloc env_ok 19 60).map
        (fun dce => (ndr_write_array_of_structs (share_callbacks g_convert_7bit 0)
          (share_enum_prologue dce 0 pipe7_ABC.num_entries) pipe7_ABC []).map
            (fun r => r.status))
      = some (some CIFSD_DCERPC_ERROR_INVALID_LEVEL)
    ∧ response_size 0 false (pipe7_ABC.entries.take 2) = 76
    ∧ (∃ r d, rpc_srvsvc_share_enum_all g_convert_7bit env_ok pipe7_ABC [] 0 19 60 = some r
        ∧ r.dce = some d ∧ d.offset = 60 ∧ d.payload_sz = 60
        ∧ (ndr_write_int32 d 0).1 = -ENOMEM)
    ∧ (dcerpc_alloc env_ok 19 128).map
        (fun dce => array_budget (share_enum_prologue dce 0 pipe7_tight.num_entries)
          (share_callbacks g_convert_7bit 0) pipe7_tight.topipe_data)
      = some (some (4, 0))
    ∧ response_size 0 false (pipe7_tight.entries.take 4) = 128
    ∧ (∃ r d, rpc_srvsvc_share_enum_all g_convert_7bit env_ok pipe7_tight [] 0 19 128 = some r
        ∧ r.dce = some d ∧ d.offset = 124 ∧ d.payload_sz = 128
        ∧ (ndr_write_int32 d 0).1 = -ENOMEM) := by
  refine ⟨by decide, by decide, by decide, by decide, by decide, ⟨_, _, rfl, rfl, ?_⟩,
    by decide, by decide, ⟨_, _, rfl, rfl, ?_⟩⟩
  · decide
  · decide

/-- C20 as amended: for every fixed-capacity context of capacity C with
129 <= C < 2^31, `ALIGN4` set and `ALIGN8` clear, and every pipe of shares
with 7-bit names and comments (count equal to the length of the entry
sequence, total estimate below 2^31, consumption callback absent or
`__share_entry_processed`), if the budget selection of
`rpc_srvsvc_share_enum_all` at level 0 or 1 selects k entries, k at least 1,
the array marshaller returns the continuation status of the selection (no
callback reported a failure) and the call returns a context whose cursor is
exactly the size of the whole response for the k entries (36 bytes of
discriminant, count, array header and trailer plus the representation and
data blocks), so every write advanced the cursor in full, and this is
below C. -/
theorem two_thirds_margin_large (env : alloc_env) (pipe : cifsd_rpc_pipe cifsd_share)
    (released : List cifsd_share) (level : Int) (flags cap : Nat)
    (hmalloc : env.malloc_ok = true)
    (hmax : (cap : Int) ≠ env.MAX_PREFERRED_SIZE)
    (hcap : 129 ≤ cap) (hcap2 : cap < 2 ^ 31)
    (hfix : (flags &&& CIFSD_DCERPC_FIXED_PAYLOAD_SZ != 0) = true)
    (hfl4 : (flags &&& CIFSD_DCERPC_ALIGN4 != 0) = true)
    (hfl8 : (flags &&& CIFSD_DCERPC_ALIGN8 != 0) = false)
    (hlevel : level = 0 ∨ level = 1)
    (hinv : pipe.num_entries = (pipe.entries.length : Int))
    (hascii : ∀ s ∈ pipe.entries, ascii_share s)
    (hsum : (pipe.entries.map
      (fun s => 2 * s.name.length + 2 * s.comment.length + 36)).sum < 2 ^ 31)
    (hproc : pipe.entry_processed = none
      ∨ pipe.entry_processed = some __share_entry_processed) :
    ∃ (dce : cifsd_dcerpc) (k : Nat) (hm : Int),
      dcerpc_alloc env flags (cap : Int) = some dce
      ∧ test_flag dce CIFSD_DCERPC_FIXED_PAYLOAD_SZ = true
      ∧ dce.payload_sz = cap
      ∧ array_budget (share_enum_prologue dce level pipe.num_entries)
          (share_callbacks g_convert_7bit level) pipe.topipe_data = some ((k : Int), hm)
      ∧ (1 ≤ k →
          ∃ (ra : array_result cifsd_share) (r : enum_result) (d : cifsd_dcerpc),
            ndr_write_array_of_structs (share_callbacks g_convert_7bit level)
              (share_enum_prologue dce level pipe.num_entries) pipe released = some ra
            ∧ ra.status = hm
            ∧ rpc_srvsvc_share_enum_all g_convert_7bit env pipe released level flags (cap : Int)
              = some r
            ∧ r.dce = some d
            ∧ d.offset = response_size level (flags &&& CIFSD_DCERPC_ASCII_STRING != 0)
                (pipe.entries.take k)
            ∧ d.offset < cap
            ∧ d.payload_sz = cap) := by
  have hnm : (!env.malloc_ok) = false := by rw [hmalloc]; rfl
  have halloc : dcerpc_alloc env flags (cap : Int)
      = some ⟨flags, 0, cap, env.fresh, env.realloc_ok⟩ := by
    unfold dcerpc_alloc
    simp only [hnm, Bool.false_eq_true, if_false, hmax, to_size_t_nat cap hcap2]
  have hd0 : ctx_like flags cap ⟨flags, 0, cap, env.fresh, env.realloc_ok⟩ := ⟨rfl, rfl, rfl⟩
  obtain ⟨hd2, ho2⟩ := prologue_fits flags cap hfl4 hfl8 (by omega)
    ⟨flags, 0, cap, env.fresh, env.realloc_ok⟩ hd0 level pipe.num_entries
    (by show 0 + 12 < cap; omega)
  have ho2b : (ndr_write_int32 (ndr_write_union
      ⟨flags, 0, cap, env.fresh, env.realloc_ok⟩ level).2 pipe.num_entries).2.offset = 12 := by
    rw [ho2]
  generalize hg : (ndr_write_int32 (ndr_write_union
      ⟨flags, 0, cap, env.fresh, env.realloc_ok⟩ level).2 pipe.num_entries).2 = d2
    at hd2 ho2b
  have hlens : ∀ s ∈ pipe.entries,
      2 * s.name.length + 2 * s.comment.length + 36 < 2 ^ 31 := by
    intro s hs
    have := term_le_sum (fun s => 2 * s.name.length + 2 * s.comment.length + 36)
      pipe.entries s hs
    simp only at this
    omega
  have hsize : ∃ size, (share_callbacks g_convert_7bit level).entry_size = some size := by
    rcases hlevel with rfl | rfl
    · exact ⟨_, rfl⟩
    · exact ⟨_, rfl⟩
  obtain ⟨size, hsize⟩ := hsize
  have hsz : ∀ (dd : cifsd_dcerpc) (l : List cifsd_share), (∀ s ∈ l, s ∈ pipe.entries) →
      (l.map (size dd)).sum = (((l.map (share_estimate level)).sum : Nat) : Int) := by
    intro dd l hl
    rw [← sum_map_cast]
    congr 1
    apply List.map_congr_left
    intro s hs
    exact share_size_eq level hlevel dd s (hlens s (hl s hs)) size hsize
  have hnn : ∀ e ∈ pipe.entries, 0 ≤ size d2 e := by
    intro e he
    rw [share_size_eq level hlevel _ e (hlens e he) size hsize]
    omega
  have hsum2 : (pipe.entries.map (size d2)).sum < 2 ^ 31 := by
    rw [hsz _ pipe.entries (fun s hs => hs)]
    have := sum_estimate_le level pipe.entries
    have h3 : (pipe.entries.map (share_estimate level)).sum < 2 ^ 31 := by omega
    exact_mod_cast h3
  obtain ⟨k, hk1, _, hk3, hk4, _⟩ := budget_loop_spec d2
    size pipe.topipe_data hinv hnn hsum2 pipe.entries.length 0 (by simp)
  have hc0 : cumulative_size (size d2) pipe.entries 0 = 0 := by
    simp [cumulative_size]
  rw [hc0] at hk1
  have hfx : test_flag d2 CIFSD_DCERPC_FIXED_PAYLOAD_SZ = true := by
    rw [ctx_like_flag flags cap _ hd2]; exact hfix
  have hb : array_budget d2 (share_callbacks g_convert_7bit level) pipe.topipe_data
      = some ((k : Int),
          if k < pipe.entries.length then CIFSD_DCERPC_ERROR_MORE_DATA else 0) := by
    unfold array_budget
    rw [hfx, hsize]
    simp only [hinv, Int.toNat_ofNat]
    exact hk1
  refine ⟨⟨flags, 0, cap, env.fresh, env.realloc_ok⟩, k,
    (if k < pipe.entries.length then CIFSD_DCERPC_ERROR_MORE_DATA else 0),
    halloc, hfix, rfl, ?_, ?_⟩
  · unfold share_enum_prologue
    rw [hg]
    exact hb
  intro hk
  have hcum := hk4 k (by omega) (le_refl k)
  rw [hd2.2.1] at hcum
  have hmul : size_mul 2 cap = 2 * cap := by
    unfold size_mul SIZE_MOD
    exact Nat.mod_eq_of_lt (by omega)
  rw [hmul] at hcum
  unfold cumulative_size at hcum
  rw [hsz _ (pipe.entries.take k) (fun s hs => List.mem_of_mem_take hs)] at hcum
  have hS : ((pipe.entries.take k).map (share_estimate level)).sum < 2 * cap / 3 := by
    exact_mod_cast hcum
  obtain ⟨w1, w2, w3⟩ := wire_vs_estimate_sum level hlevel
    (flags &&& CIFSD_DCERPC_ASCII_STRING != 0) (pipe.entries.take k)
  have hT := margin_arith cap _ _ hcap hS w1 w2 w3
  obtain ⟨ra, a1, a2, a3, a4⟩ := array_fits level hlevel flags cap hfl4 hfl8 (by omega)
    d2 hd2 pipe released k _ hb hk hk3 hascii
    (fun s hs => by have := hlens s hs; omega)
    (by rw [ho2b]; omega) hproc
  rw [ho2b] at a4
  obtain ⟨t1, t2⟩ := trailer_fits flags cap hfl4 hfl8 (by omega) ra.dce a3 ra.pipe ra.status
    (by rw [a4]; omega)
  have hlv : level = 0 ∨ level = 1 := hlevel
  refine ⟨ra, ⟨some (share_enum_trailer ra.dce ra.pipe ra.status), ra.pipe, ra.released⟩, _,
    ?_, a2, ?_, rfl, ?_, ?_, t2⟩
  · unfold share_enum_prologue
    rw [hg]
    exact a1
  · unfold rpc_srvsvc_share_enum_all
    simp only [halloc, hlv, if_true]
    unfold share_callbacks at a1
    rw [hg]
    simp only [a1]
  · rw [t1, a4, response_size_eq]
    omega
  · rw [t1, a4]
    omega

/-- Witness of C20 as amended: capacity 144, level 0, the entries "A", "BB",
"CCC"; the response ends at offset 100. -/
theorem two_thirds_margin_large_witness :
    env_ok.malloc_ok = true
    ∧ ((144 : Nat) : Int) ≠ env_ok.MAX_PREFERRED_SIZE
    ∧ (∀ s ∈ pipe7_ABC.entries, ascii_share s)
    ∧ (pipe7_ABC.entries.map
        (fun s => 2 * s.name.length + 2 * s.comment.length + 36)).sum < 2 ^ 31
    ∧ (rpc_srvsvc_share_enum_all g_convert_7bit env_ok pipe7_ABC [] 0 19 ((144 : Nat) : Int)).map
        (fun r => r.dce.map (fun d => d.offset)) = some (some 100)
    ∧ ∃ (dce : cifsd_dcerpc) (k : Nat) (hm : Int),
      dcerpc_alloc env_ok 19 ((144 : Nat) : Int) = some dce
      ∧ test_flag dce CIFSD_DCERPC_FIXED_PAYLOAD_SZ = true
      ∧ dce.payload_sz = 144
      ∧ array_budget (share_enum_prologue dce 0 pipe7_ABC.num_entries)
          (share_callbacks g_convert_7bit 0) pipe7_ABC.topipe_data = some ((k : Int), hm)
      ∧ (1 ≤ k →
          ∃ (ra : array_result cifsd_share) (r : enum_result) (d : cifsd_dcerpc),
            ndr_write_array_of_structs (share_callbacks g_convert_7bit 0)
              (share_enum_prologue dce 0 pipe7_ABC.num_entries) pipe7_ABC [] = some ra
            ∧ ra.status = hm
            ∧ rpc_srvsvc_share_enum_all g_convert_7bit env_ok pipe7_ABC [] 0 19 ((144 : Nat) : Int)
              = some r
            ∧ r.dce = some d
            ∧ d.offset = response_size 0 (19 &&& CIFSD_DCERPC_ASCII_STRING != 0)
                (pipe7_ABC.entries.take k)
            ∧ d.offset < 144
            ∧ d.payload_sz = 144) :=
  ⟨rfl, by decide, by decide, by decide, by decide,
   two_thirds_margin_large env_ok pipe7_ABC [] 0 19 144 rfl (by decide) (by decide) (by decide)
     (by decide) (by decide) (by decide) (Or.inl rfl) (by decide) (by decide) (by decide)
     (Or.inr rfl)⟩

/-- C21: when `ndr_write_array_of_structs` selects k entries that lie inside the
entry array, and along the run some `entry_rep` call or, after k `entry_rep`
calls that returned 0, some `entry_data` call returns a non-zero status, the
call returns: its status is the invalid-level error, the pipe (entry sequence,
count and callback) and the release log are as before the call, no invocation
of `entry_processed` is made, and the invocations end with the failing one:
they are the `entry_size` calls of the selection followed by `entry_rep` on
the entries 0..j, or by `entry_rep` on 0..k-1 and `entry_data` on 0..j, where
j is the index of the first failing callback; the context is the one that
callback left. -/
theorem callback_failure_aborts {α : Type} (cb : dcerpc_callbacks α) (dce : cifsd_dcerpc)
    (pipe : cifsd_rpc_pipe α) (released : List α) (k hm : Int) (sizes : List callback_call)
    (hb : array_budget_calls dce cb pipe.topipe_data = some ((k, hm), sizes))
    (hk : k.toNat ≤ pipe.entries.length)
    (hfail : all_return_zero cb.entry_rep (pipe.entries.take k.toNat) (array_header dce k) = false
      ∨ all_return_zero cb.entry_data (pipe.entries.take k.toNat)
          (apply_all cb.entry_rep (pipe.entries.take k.toNat) (array_header dce k)) = false) :
    ∃ (r : array_result α) (calls : List callback_call) (j : Nat) (e : α),
      ndr_write_array_of_structs_calls cb dce pipe released = some (r, calls)
      ∧ ndr_write_array_of_structs cb dce pipe released = some r
      ∧ r.status = CIFSD_DCERPC_ERROR_INVALID_LEVEL
      ∧ r.pipe = pipe
      ∧ r.released = released
      ∧ (∀ i, callback_call.entry_processed i ∉ calls)
      ∧ j < k.toNat
      ∧ g_array_index pipe.entries j = some e
      ∧ (((cb.entry_rep (apply_all cb.entry_rep (pipe.entries.take j) (array_header dce k)) e).1
            ≠ 0
          ∧ r.dce
            = (cb.entry_rep (apply_all cb.entry_rep (pipe.entries.take j) (array_header dce k))
                e).2
          ∧ calls = sizes ++ (List.range (j + 1)).map callback_call.entry_rep)
        ∨ ((cb.entry_data (apply_all cb.entry_data (pipe.entries.take j)
              (apply_all cb.entry_rep (pipe.entries.take k.toNat) (array_header dce k))) e).1 ≠ 0
          ∧ r.dce
            = (cb.entry_data (apply_all cb.entry_data (pipe.entries.take j)
                (apply_all cb.entry_rep (pipe.entries.take k.toNat) (array_header dce k))) e).2
          ∧ calls = sizes ++ (List.range k.toNat).map callback_call.entry_rep
              ++ (List.range (j + 1)).map callback_call.entry_data)) := by
  have hsz := array_budget_calls_only_size dce cb pipe.topipe_data _ hb
  have hun := ndr_write_array_of_structs_calls_fst cb dce pipe released
  have hk0 : ¬ k = 0 := by
    intro h0
    subst h0
    rcases hfail with h | h <;> simp [all_return_zero] at h
  have hne : CIFSD_DCERPC_ERROR_INVALID_LEVEL ≠ 0 := by decide
  cases hrep : all_return_zero cb.entry_rep (pipe.entries.take k.toNat) (array_header dce k) with
  | false =>
    obtain ⟨j, e, hj, hg, _, hf, hm4⟩ := marshal_loop_calls_fail cb.entry_rep
      callback_call.entry_rep pipe.entries k.toNat 0 (array_header dce k) (by omega)
      (by simpa using hrep)
    simp only [List.drop_zero, Nat.zero_add] at hg hf hm4
    have ht : ndr_write_array_of_structs_calls cb dce pipe released
        = some (⟨CIFSD_DCERPC_ERROR_INVALID_LEVEL,
            (cb.entry_rep (apply_all cb.entry_rep (pipe.entries.take j) (array_header dce k))
              e).2, pipe, released⟩,
          sizes ++ (List.range' 0 (j + 1)).map callback_call.entry_rep) := by
      unfold ndr_write_array_of_structs_calls
      unfold array_header at hm4 ⊢
      simp only [hb, hk0, if_false, hm4, ne_eq, hne, not_false_eq_true, if_true]
    refine ⟨_, _, j, e, ht, ?_, rfl, rfl, rfl, ?_, hj, hg, Or.inl ⟨hf, rfl, ?_⟩⟩
    · rw [← hun, ht]; rfl
    · intro i hi
      simp only [List.mem_append, List.mem_map] at hi
      rcases hi with hi | ⟨a, _, ha⟩
      · obtain ⟨t, ht2⟩ := hsz _ hi
        cases ht2
      · cases ha
    · rw [List.range_eq_range']
  | true =>
    have hdata : all_return_zero cb.entry_data (pipe.entries.take k.toNat)
        (apply_all cb.entry_rep (pipe.entries.take k.toNat) (array_header dce k)) = false := by
      rcases hfail with h | h
      · rw [hrep] at h; cases h
      · exact h
    have h4 := marshal_loop_calls_ok cb.entry_rep callback_call.entry_rep pipe.entries k.toNat 0
      (array_header dce k) (by omega) (by simpa using hrep)
    obtain ⟨j, e, hj, hg, _, hf, hm5⟩ := marshal_loop_calls_fail cb.entry_data
      callback_call.entry_data pipe.entries k.toNat 0
      (apply_all cb.entry_rep (pipe.entries.take k.toNat) (array_header dce k)) (by omega)
      (by simpa using hdata)
    simp only [List.drop_zero, Nat.zero_add] at h4 hg hf hm5
    have ht : ndr_write_array_of_structs_calls cb dce pipe released
        = some (⟨CIFSD_DCERPC_ERROR_INVALID_LEVEL,
            (cb.entry_data (apply_all cb.entry_data (pipe.entries.take j)
              (apply_all cb.entry_rep (pipe.entries.take k.toNat) (array_header dce k))) e).2,
            pipe, released⟩,
          sizes ++ (List.range' 0 k.toNat).map callback_call.entry_rep
            ++ (List.range' 0 (j + 1)).map callback_call.entry_data) := by
      unfold ndr_write_array_of_structs_calls
      unfold array_header at h4 hm5 ⊢
      simp only [hb, hk0, if_false, h4, hm5, ne_eq, hne, not_false_eq_true, if_true,
        not_true_eq_false]
    refine ⟨_, _, j, e, ht, ?_, rfl, rfl, rfl, ?_, hj, hg, Or.inr ⟨hf, rfl, ?_⟩⟩
    · rw [← hun, ht]; rfl
    · intro i hi
      simp only [List.mem_append, List.mem_map] at hi
      rcases hi with (hi | ⟨a, _, ha⟩) | ⟨a, _, ha⟩
      · obtain ⟨t, ht2⟩ := hsz _ hi
        cases ht2
      · cases ha
      · cases ha
    · rw [List.range_eq_range', List.range_eq_range']

/-- Witness of C21: a fixed context of capacity 29 with the cursor at 16 and the
level-0 callbacks over the entries "A", "BB", "CCC": one entry is selected
(after `entry_size` on the first two entries), the array header ends at
offset 28, and the `entry_rep` call on the first entry is refused for lack of
room. -/
theorem callback_failure_aborts_witness :
    array_budget_calls { ctx 19 29 0 with offset := 16 } callbacks_ctr0 pipe7_ABC.topipe_data
        = some ((1, CIFSD_DCERPC_ERROR_MORE_DATA),
            [callback_call.entry_size 0, callback_call.entry_size 1])
    ∧ (1 : Int).toNat ≤ pipe7_ABC.entries.length
    ∧ all_return_zero callbacks_ctr0.entry_rep (pipe7_ABC.entries.take (1 : Int).toNat)
        (array_header { ctx 19 29 0 with offset := 16 } 1) = false
    ∧ ∃ (r : array_result cifsd_share) (calls : List callback_call) (j : Nat) (e : cifsd_share),
      ndr_write_array_of_structs_calls callbacks_ctr0 { ctx 19 29 0 with offset := 16 }
          pipe7_ABC [] = some (r, calls)
      ∧ ndr_write_array_of_structs callbacks_ctr0 { ctx 19 29 0 with offset := 16 }
          pipe7_ABC [] = some r
      ∧ r.status = CIFSD_DCERPC_ERROR_INVALID_LEVEL
      ∧ r.pipe = pipe7_ABC
      ∧ r.released = []
      ∧ (∀ i, callback_call.entry_processed i ∉ calls)
      ∧ j < (1 : Int).toNat
      ∧ g_array_index pipe7_ABC.entries j = some e
      ∧ (((callbacks_ctr0.entry_rep (apply_all callbacks_ctr0.entry_rep
              (pipe7_ABC.entries.take j)
              (array_header { ctx 19 29 0 with offset := 16 } 1)) e).1 ≠ 0
          ∧ r.dce
            = (callbacks_ctr0.entry_rep (apply_all callbacks_ctr0.entry_rep
                (pipe7_ABC.entries.take j)
                (array_header { ctx 19 29 0 with offset := 16 } 1)) e).2
          ∧ calls = [callback_call.entry_size 0, callback_call.entry_size 1]
              ++ (List.range (j + 1)).map callback_call.entry_rep)
        ∨ ((callbacks_ctr0.entry_data (apply_all callbacks_ctr0.entry_data
              (pipe7_ABC.entries.take j)
              (apply_all callbacks_ctr0.entry_rep (pipe7_ABC.entries.take (1 : Int).toNat)
                (array_header { ctx 19 29 0 with offset := 16 } 1))) e).1 ≠ 0
          ∧ r.dce
            = (callbacks_ctr0.entry_data (apply_all callbacks_ctr0.entry_data
                (pipe7_ABC.entries.take j)
                (apply_all callbacks_ctr0.entry_rep (pipe7_ABC.entries.take (1 : Int).toNat)
                  (array_header { ctx 19 29 0 with offset := 16 } 1))) e).2
          ∧ calls = [callback_call.entry_size 0, callback_call.entry_size 1]
              ++ (List.range (1 : Int).toNat).map callback_call.entry_rep
              ++ (List.range (j + 1)).map callback_call.entry_data)) :=
  ⟨by decide, by decide, by decide,
   callback_failure_aborts callbacks_ctr0 { ctx 19 29 0 with offset := 16 } pipe7_ABC [] 1
     CIFSD_DCERPC_ERROR_MORE_DATA [callback_call.entry_size 0, callback_call.entry_size 1]
     (by decide) (by decide) (Or.inl (by decide))⟩

end Cifsd
